import Mathlib

/-!
Verification development for the qubic-core epoch-scoped tick/transaction
storage, mempool (`TxsPool`), tick storage snapshot metadata, the
transactions digest index, and the contract-execution stack pool.

All definitions are shallow embeddings of the C++ sources
(`src/tick_txs_storage.h`, `src/txs_pool.h`, `src/tick_storage.h`,
`src/contract_core/contract_exec.h`).  Machine integers are modelled as
`Nat`; C `unsigned int` arithmetic that can actually wrap (tick-range
computations in `beginEpoch`) uses explicit `% 2^32`.  Arrays are modelled
as total functions from flat indices to values, and `copyMem`/`setMem`
loops whose iterations touch pairwise disjoint cells are embedded as the
corresponding pointwise function transformations.  External primitives
(KangarooTwelve, file I/O) are parameters of the embedding.
-/

namespace Qubic

/-- Modulus of C `unsigned int` arithmetic. -/
def U32 : Nat := 4294967296

/-- C `unsigned int` addition (wraps at `2^32`). -/
def add32 (a b : Nat) : Nat := (a + b) % U32

/-- C `unsigned int` subtraction `a - b` for representable operands
(`a < 2^32`, `b < 2^32`): wraps at zero. -/
def sub32 (a b : Nat) : Nat := (a + U32 - b % U32) % U32

/-- Compile-time configuration constants from `public_settings.h`
(the header is not part of the sources; the constants are kept abstract). -/
structure Config where
  maxTicksPerEpoch : Nat     -- MAX_NUMBER_OF_TICKS_PER_EPOCH
  ticksToKeep : Nat          -- TICKS_TO_KEEP_FROM_PRIOR_EPOCH
  txPerTick : Nat            -- NUMBER_OF_TRANSACTIONS_PER_TICK
  firstOffset : Nat          -- FIRST_TICK_TRANSACTION_OFFSET
  maxTxSize : Nat            -- MAX_TRANSACTION_SIZE
  sparseness : Nat           -- TRANSACTION_SPARSENESS

namespace Config

/-- `TickTransactionsStorage::tickTransactionsSizeCurrentEpoch`. -/
def curArenaSize (c : Config) : Nat :=
  c.firstOffset + c.maxTicksPerEpoch * c.txPerTick * c.maxTxSize / c.sparseness

/-- `TickTransactionsStorage::tickTransactionsSizePreviousEpoch`. -/
def prevArenaSize (c : Config) : Nat :=
  c.ticksToKeep * c.txPerTick * c.maxTxSize / c.sparseness

/-- `TickStorage::maxNumberTxsCurrentEpoch` (capacity of the digest index). -/
def maxNumberTxsCurrentEpoch (c : Config) : Nat :=
  c.maxTicksPerEpoch * c.txPerTick

end Config

/-- Shallow model of a `Transaction`: the `tick` field, the external
`checkValidity()` verdict, the serialized size `totalSize()`, and the
serialized bytes. -/
structure Tx where
  tick : Nat
  valid : Bool
  size : Nat
  bytes : Nat → Nat

/-- State of `TickTransactionsStorage`: tick ranges, the flat slot table
(`tickIndex * NUMBER_OF_TRANSACTIONS_PER_TICK + slot ↦ arena offset`,
offset 0 meaning empty), the transaction arena bytes, and the bump
pointer `nextTickTransactionOffset`. -/
structure TTStorage where
  tickBegin : Nat
  tickEnd : Nat
  oldTickBegin : Nat
  oldTickEnd : Nat
  offsets : Nat → Nat
  arena : Nat → Nat
  nextTickTransactionOffset : Nat

namespace TTStorage

/-- `TickTransactionsStorage::init`: everything zeroed, bump pointer at
`FIRST_TICK_TRANSACTION_OFFSET`. -/
def init (c : Config) : TTStorage :=
  { tickBegin := 0, tickEnd := 0, oldTickBegin := 0, oldTickEnd := 0
    offsets := fun _ => 0, arena := fun _ => 0
    nextTickTransactionOffset := c.firstOffset }

/-- `tickInCurrentEpochStorage`. -/
def tickInCurrentEpochStorage (s : TTStorage) (tick : Nat) : Bool :=
  decide (s.tickBegin ≤ tick) && decide (tick < s.tickEnd)

end TTStorage

/-- State of the `TxsPool` mempool: its own copy of the tick ranges, the
per-tick saved-transaction counters (`numSavedTxsPerTick`, indexed by tick
index across both epochs), the flat digest array
(`tickIndex * NUMBER_OF_TRANSACTIONS_PER_TICK + slot ↦ 256-bit digest`,
modelled as `Nat`), and the embedded `TickTransactionsStorage`. -/
structure Pool where
  tickBegin : Nat
  tickEnd : Nat
  oldTickBegin : Nat
  oldTickEnd : Nat
  numSavedTxsPerTick : Nat → Nat
  digests : Nat → Nat
  storage : TTStorage

namespace Pool

/-- `TxsPool::init`: counters and ranges zeroed, storage initialized. -/
def init (c : Config) : Pool :=
  { tickBegin := 0, tickEnd := 0, oldTickBegin := 0, oldTickEnd := 0
    numSavedTxsPerTick := fun _ => 0, digests := fun _ => 0
    storage := TTStorage.init c }

/-- `TxsPool::tickInCurrentEpochStorage`. -/
def tickInCurrentEpochStorage (p : Pool) (tick : Nat) : Bool :=
  decide (p.tickBegin ≤ tick) && decide (tick < p.tickEnd)

/-- `TxsPool::tickInPreviousEpochStorage`. -/
def tickInPreviousEpochStorage (p : Pool) (tick : Nat) : Bool :=
  decide (p.oldTickBegin ≤ tick) && decide (tick < p.oldTickEnd)

/-- `TxsPool::tickToIndexCurrentEpoch` (guarded call sites guarantee
`tickBegin ≤ tick`, so `Nat` subtraction is exact there). -/
def tickToIndexCurrentEpoch (p : Pool) (tick : Nat) : Nat :=
  tick - p.tickBegin

/-- `TxsPool::tickToIndexPreviousEpoch`. -/
def tickToIndexPreviousEpoch (c : Config) (p : Pool) (tick : Nat) : Nat :=
  tick - p.oldTickBegin + c.maxTicksPerEpoch

/-- `TxsPool::update`: check validity and current-epoch membership, then
under the locks check the per-tick capacity and the arena bump fit; on
acceptance hash the transaction into the digest array, copy its bytes to
the arena at the bump offset, record that offset in the slot table and
increment the per-tick counter.  `kt` is the external KangarooTwelve
digest function. -/
def update (c : Config) (kt : Tx → Nat) (p : Pool) (tx : Tx) : Bool × Pool :=
  if tx.valid = true ∧ p.tickInCurrentEpochStorage tx.tick = true then
    let tickIndex := p.tickToIndexCurrentEpoch tx.tick
    let transactionSize := tx.size
    if p.numSavedTxsPerTick tickIndex < c.txPerTick ∧
        p.storage.nextTickTransactionOffset + transactionSize ≤ c.curArenaSize then
      let slot := tickIndex * c.txPerTick + p.numSavedTxsPerTick tickIndex
      let transactionOffset := p.storage.nextTickTransactionOffset
      (true,
        { p with
          digests := fun i => if i = slot then kt tx else p.digests i
          numSavedTxsPerTick := fun i =>
            if i = tickIndex then p.numSavedTxsPerTick tickIndex + 1
            else p.numSavedTxsPerTick i
          storage :=
            { p.storage with
              offsets := fun i => if i = slot then transactionOffset else p.storage.offsets i
              arena := fun i =>
                if transactionOffset ≤ i ∧ i < transactionOffset + transactionSize then
                  tx.bytes (i - transactionOffset)
                else p.storage.arena i
              nextTickTransactionOffset := transactionOffset + transactionSize } })
    else (false, p)
  else (false, p)

/-- `TxsPool::get`: classify the tick, then return the arena offset of
transaction `index` of that tick (standing for the returned pointer), or
`none` for `nullptr`. -/
def get (c : Config) (p : Pool) (tick index : Nat) : Option Nat :=
  if p.tickInCurrentEpochStorage tick = true then
    let tickIndex := p.tickToIndexCurrentEpoch tick
    if index < p.numSavedTxsPerTick tickIndex then
      some (p.storage.offsets (tickIndex * c.txPerTick + index))
    else none
  else if p.tickInPreviousEpochStorage tick = true then
    let tickIndex := p.tickToIndexPreviousEpoch c tick
    if index < p.numSavedTxsPerTick tickIndex then
      some (p.storage.offsets (tickIndex * c.txPerTick + index))
    else none
  else none

/-- `TxsPool::getDigest`: classify the tick, then return the flat index of
the digest cell (standing for the returned pointer
`&txsDigestsPtr[tickIndex * NUMBER_OF_TRANSACTIONS_PER_TICK + index]`),
or `none` for `nullptr`. -/
def getDigest (c : Config) (p : Pool) (tick index : Nat) : Option Nat :=
  if p.tickInCurrentEpochStorage tick = true then
    let tickIndex := p.tickToIndexCurrentEpoch tick
    if index < p.numSavedTxsPerTick tickIndex then
      some (tickIndex * c.txPerTick + index)
    else none
  else if p.tickInPreviousEpochStorage tick = true then
    let tickIndex := p.tickToIndexPreviousEpoch c tick
    if index < p.numSavedTxsPerTick tickIndex then
      some (tickIndex * c.txPerTick + index)
    else none
  else none

end Pool

/-- Sum of `f` over `n` consecutive arguments starting at `a`. -/
def sumFrom (f : Nat → Nat) (a : Nat) : Nat → Nat
  | 0 => 0
  | n + 1 => f a + sumFrom f (a + 1) n

/-- Sum of `f` over the half-open interval `[a, b)` (the accumulation
loops `for (t = a; t < b; ++t) res += f(t)` of `TxsPool`). -/
def sumIco (f : Nat → Nat) (a b : Nat) : Nat := sumFrom f a (b - a)

namespace Pool

/-- The pair `(startTick, oldStartTick)` computed by the branch cascade at
the beginning of `TxsPool::getNumberOfPendingTxs` (defaults are
`(tickEnd, oldTickEnd)`). -/
def pendingStartTicks (p : Pool) (tick : Nat) : Nat × Nat :=
  if tick < p.oldTickBegin ∨ (p.oldTickBegin = 0 ∧ tick < p.tickBegin) then
    (p.tickBegin, p.oldTickBegin)
  else if p.tickInPreviousEpochStorage tick = true then
    (p.tickBegin, tick + 1)
  else if p.tickInCurrentEpochStorage tick = true then
    (tick + 1, p.oldTickEnd)
  else (p.tickEnd, p.oldTickEnd)

/-- `TxsPool::getNumberOfPendingTxs`: sum the per-tick counters over
`[startTick, tickEnd)` in the current epoch and `[oldStartTick, oldTickEnd)`
in the previous epoch. -/
def getNumberOfPendingTxs (c : Config) (p : Pool) (tick : Nat) : Nat :=
  let st := p.pendingStartTicks tick
  sumIco (fun t => p.numSavedTxsPerTick (p.tickToIndexCurrentEpoch t)) st.1 p.tickEnd +
    sumIco (fun t => p.numSavedTxsPerTick (p.tickToIndexPreviousEpoch c t)) st.2 p.oldTickEnd

end Pool

namespace TTStorage

/-- `TickTransactionsStorage::beginEpoch`.  On a seamless transition keep
up to `TICKS_TO_KEEP_FROM_PRIOR_EPOCH` ticks before `newInitialTick`: copy
the last `keep` arena bytes into the previous-epoch region, rebase the
surviving slot-table offsets of the kept ticks by `offsetDelta` (dropping
those below `firstToKeepOffset`), then clear the current-epoch arena and
slot-table half; otherwise clear everything.  Tick-range arithmetic uses C
`unsigned int` (mod `2^32`).  The rebasing loop writes only previous-epoch
slot cells while reading current-epoch cells (disjoint regions), so it is
embedded pointwise; a cell's row and column are recovered by `/` and `%`. -/
def beginEpoch (c : Config) (s : TTStorage) (newInitialTick : Nat) : TTStorage :=
  if s.tickBegin ≠ 0 ∧ s.tickInCurrentEpochStorage newInitialTick = true ∧
      s.tickBegin < newInitialTick then
    let oldTickEndNew := newInitialTick
    let rawOldBegin := sub32 newInitialTick c.ticksToKeep
    let oldTickBeginNew := if rawOldBegin < s.tickBegin then s.tickBegin else rawOldBegin
    let tickCount := oldTickEndNew - oldTickBeginNew
    let totalTransactionSizesSum := s.nextTickTransactionOffset - c.firstOffset
    let keepTransactionSizesSum :=
      if totalTransactionSizesSum ≤ c.prevArenaSize then totalTransactionSizesSum
      else c.prevArenaSize
    let firstToKeepOffset := s.nextTickTransactionOffset - keepTransactionSizesSum
    let arena1 := fun i =>
      if c.curArenaSize ≤ i ∧ i < c.curArenaSize + keepTransactionSizesSum then
        s.arena (firstToKeepOffset + (i - c.curArenaSize))
      else s.arena i
    let offsetDelta := c.curArenaSize + keepTransactionSizesSum - s.nextTickTransactionOffset
    let offsets1 := fun idx =>
      let row := idx / c.txPerTick
      if c.maxTicksPerEpoch ≤ row ∧ row < c.maxTicksPerEpoch + tickCount then
        let tickId := row - c.maxTicksPerEpoch + oldTickBeginNew
        let offset := s.offsets ((tickId - s.tickBegin) * c.txPerTick + idx % c.txPerTick)
        if offset = 0 ∨ offset < firstToKeepOffset then 0
        else offset + offsetDelta
      else s.offsets idx
    let offsets2 := fun idx =>
      if idx < c.maxTicksPerEpoch * c.txPerTick then 0 else offsets1 idx
    let arena2 := fun i => if i < c.curArenaSize then 0 else arena1 i
    { tickBegin := newInitialTick, tickEnd := add32 newInitialTick c.maxTicksPerEpoch
      oldTickBegin := oldTickBeginNew, oldTickEnd := oldTickEndNew
      offsets := offsets2, arena := arena2
      nextTickTransactionOffset := c.firstOffset }
  else
    { tickBegin := newInitialTick, tickEnd := add32 newInitialTick c.maxTicksPerEpoch
      oldTickBegin := 0, oldTickEnd := 0
      offsets := fun _ => 0, arena := fun _ => 0
      nextTickTransactionOffset := c.firstOffset }

end TTStorage

/-- Index of the first `j` (scanning `fuel` cells upward from `j0`) with
`f j ≠ 0`, or `none`: the `firstNonZero` scan of `TxsPool::beginEpoch`. -/
def firstNonZeroFrom (f : Nat → Nat) : Nat → Nat → Option Nat
  | _, 0 => none
  | j, fuel + 1 => if f j ≠ 0 then some j else firstNonZeroFrom f (j + 1) fuel

/-- First `j < n` with `f j ≠ 0`, or `none` if all are zero. -/
def firstNonZero (f : Nat → Nat) (n : Nat) : Option Nat := firstNonZeroFrom f 0 n

namespace Pool

/-- Compacted per-tick counter produced by the compaction step of
`TxsPool::beginEpoch` for one previous-epoch tick: `offsRow` is the
(already rebased) offsets row, `cnt` the copied counter. -/
def compactCount (c : Config) (offsRow : Nat → Nat) (cnt : Nat) : Nat :=
  if cnt = 0 then cnt
  else
    match firstNonZero offsRow c.txPerTick with
    | none => 0
    | some f => cnt - f

/-- Final value of cell `j` of a per-tick row after the compaction step of
`TxsPool::beginEpoch`: `g` is the row being shifted (the offsets row itself
or the digests row), `offsRow`/`cnt` as in `compactCount`.  The shift loop
reads `g (j + firstNonZero)` strictly ahead of its writes, so the original
row contents are read.  (States where the first non-zero offset lies at or
beyond `cnt` make the C code read out of array bounds; the theorems
restrict to well-formed rows.) -/
def compactCell (c : Config) (offsRow : Nat → Nat) (cnt : Nat) (g : Nat → Nat) (j : Nat) : Nat :=
  if cnt = 0 then g j
  else
    match firstNonZero offsRow c.txPerTick with
    | none => g j
    | some f => if j < cnt - f then g (j + f) else if j < cnt then 0 else g j

/-- The slot-offset row of tick index `row` in a storage: cell `j` holds
`tickTransactionOffsets.getByTickIndex(row)[j]`. -/
def offsetsRow (c : Config) (st : TTStorage) (row : Nat) : Nat → Nat :=
  fun j => st.offsets (row * c.txPerTick + j)

/-- The per-tick counters after the `copyMem` of `TxsPool::beginEpoch`
that copies `tickCount` counters from tick index `tickIndex` to the
previous-epoch half. -/
def numSavedCopied (c : Config) (p : Pool) (tickIndex tickCount i : Nat) : Nat :=
  if c.maxTicksPerEpoch ≤ i ∧ i < c.maxTicksPerEpoch + tickCount then
    p.numSavedTxsPerTick (tickIndex + (i - c.maxTicksPerEpoch))
  else p.numSavedTxsPerTick i

/-- The per-tick counters after the subsequent `setMem` that zeroes the
current-epoch half. -/
def numSavedCleared (c : Config) (p : Pool) (tickIndex tickCount i : Nat) : Nat :=
  if i < c.maxTicksPerEpoch then 0 else numSavedCopied c p tickIndex tickCount i

/-- The digest array after the `copyMem` of `TxsPool::beginEpoch` that
copies the kept ticks' digests to the previous-epoch half. -/
def digestsCopied (c : Config) (p : Pool) (tickIndex tickCount idx : Nat) : Nat :=
  if c.maxTicksPerEpoch * c.txPerTick ≤ idx ∧
      idx < c.maxTicksPerEpoch * c.txPerTick + tickCount * c.txPerTick then
    p.digests (tickIndex * c.txPerTick + (idx - c.maxTicksPerEpoch * c.txPerTick))
  else p.digests idx

/-- The digest array after the subsequent `setMem` that zeroes the
current-epoch half. -/
def digestsCleared (c : Config) (p : Pool) (tickIndex tickCount idx : Nat) : Nat :=
  if idx < c.maxTicksPerEpoch * c.txPerTick then 0
  else digestsCopied c p tickIndex tickCount idx

/-- `TxsPool::beginEpoch`: first delegate to
`TickTransactionsStorage::beginEpoch`, then on a seamless transition copy
the kept ticks' digests and counters into the previous-epoch halves, clear
the current-epoch halves, and compact each kept tick's offsets/digests rows
(dropping leading zero offsets left by the arena rebasing).  Each loop
iteration touches only its own tick's row and counter, so the loops are
embedded row-wise; a cell's row and column are recovered by `/` and `%`. -/
def beginEpoch (c : Config) (p : Pool) (newInitialTick : Nat) : Pool :=
  let st := TTStorage.beginEpoch c p.storage newInitialTick
  if p.tickBegin ≠ 0 ∧ p.tickInCurrentEpochStorage newInitialTick = true ∧
      p.tickBegin < newInitialTick then
    let oldTickEndNew := newInitialTick
    let rawOldBegin := sub32 newInitialTick c.ticksToKeep
    let oldTickBeginNew := if rawOldBegin < p.tickBegin then p.tickBegin else rawOldBegin
    let tickIndex := oldTickBeginNew - p.tickBegin
    let tickCount := oldTickEndNew - oldTickBeginNew
    let offsets3 := fun idx =>
      let row := idx / c.txPerTick
      if c.maxTicksPerEpoch ≤ row ∧ row < c.maxTicksPerEpoch + tickCount then
        compactCell c (offsetsRow c st row) (numSavedCleared c p tickIndex tickCount row)
          (offsetsRow c st row) (idx % c.txPerTick)
      else st.offsets idx
    let digests3 := fun idx =>
      let row := idx / c.txPerTick
      if c.maxTicksPerEpoch ≤ row ∧ row < c.maxTicksPerEpoch + tickCount then
        compactCell c (offsetsRow c st row) (numSavedCleared c p tickIndex tickCount row)
          (fun j => digestsCleared c p tickIndex tickCount (row * c.txPerTick + j))
          (idx % c.txPerTick)
      else digestsCleared c p tickIndex tickCount idx
    let numSaved3 := fun i =>
      if c.maxTicksPerEpoch ≤ i ∧ i < c.maxTicksPerEpoch + tickCount then
        compactCount c (offsetsRow c st i) (numSavedCleared c p tickIndex tickCount i)
      else numSavedCleared c p tickIndex tickCount i
    { tickBegin := newInitialTick, tickEnd := add32 newInitialTick c.maxTicksPerEpoch
      oldTickBegin := oldTickBeginNew, oldTickEnd := oldTickEndNew
      numSavedTxsPerTick := numSaved3, digests := digests3
      storage := { st with offsets := offsets3 } }
  else
    { tickBegin := newInitialTick, tickEnd := add32 newInitialTick c.maxTicksPerEpoch
      oldTickBegin := 0, oldTickEnd := 0
      numSavedTxsPerTick := fun _ => 0, digests := fun _ => 0
      storage := st }

end Pool

/-- States of the pool reachable by `init` followed by any sequence of
`beginEpoch` and `update` calls. -/
inductive Reached (c : Config) (kt : Tx → Nat) : Pool → Prop where
  | init : Reached c kt (Pool.init c)
  | beginEpoch (p : Pool) (t : Nat) : Reached c kt p → Reached c kt (p.beginEpoch c t)
  | update (p : Pool) (tx : Tx) : Reached c kt p → Reached c kt (p.update c kt tx).2

/-- Reachability where every `beginEpoch` argument avoids `unsigned int`
wraparound: `TICKS_TO_KEEP_FROM_PRIOR_EPOCH ≤ newInitialTick` and
`newInitialTick + MAX_NUMBER_OF_TICKS_PER_EPOCH < 2^32`. -/
inductive ReachedSafe (c : Config) (kt : Tx → Nat) : Pool → Prop where
  | init : ReachedSafe c kt (Pool.init c)
  | beginEpoch (p : Pool) (t : Nat) (h1 : c.ticksToKeep ≤ t)
      (h2 : t + c.maxTicksPerEpoch < U32) :
      ReachedSafe c kt p → ReachedSafe c kt (p.beginEpoch c t)
  | update (p : Pool) (tx : Tx) : ReachedSafe c kt p → ReachedSafe c kt (p.update c kt tx).2

/-- An entry of the transactions digest index of `TickStorage`
(`TransactionsDigestAccess::HashMapEntry`): a 256-bit digest (as `Nat`,
zero meaning unoccupied) and the stored `const Transaction*` (as a `Nat`
address, `0` = `NULL`). -/
structure HashMapEntry where
  digest : Nat
  transaction : Nat
  deriving DecidableEq

/-- `TransactionsDigestAccess::hashFunc`: word 7 of the digest
(`m256i_u32[7]`, bits 224..255) modulo the table capacity. -/
def hashFunc (cap digest : Nat) : Nat := digest / 2 ^ 224 % 2 ^ 32 % cap

/-- The probe loop of `insertTransaction`: starting at `idx`, advance by
linear probing until a free slot is found; stepping back onto the original
slot `orig` drops the insertion (`none`).  `fuel` bounds the recursion; the
loop started at `orig` with `fuel = cap` always exits before exhausting it
(the wrap test fires first), so the fuel-0 fallback is unreachable. -/
def insertLoop (cap : Nat) (tbl : Nat → HashMapEntry) (orig : Nat) : Nat → Nat → Option Nat
  | idx, 0 => if (tbl idx).digest = 0 then some idx else none
  | idx, fuel + 1 =>
    if (tbl idx).digest = 0 then some idx
    else
      let idx2 := (idx + 1) % cap
      if idx2 = orig then none else insertLoop cap tbl orig idx2 fuel

/-- `TransactionsDigestAccess::insertTransaction`: inserting the zero
digest is a no-op; otherwise probe linearly from the hash slot and store
the entry in the first free slot, silently dropping the insertion if the
probe wraps back to its starting slot. -/
def insertTransaction (cap : Nat) (tbl : Nat → HashMapEntry) (digest txPtr : Nat) :
    Nat → HashMapEntry :=
  if digest = 0 then tbl
  else
    match insertLoop cap tbl (hashFunc cap digest) (hashFunc cap digest) cap with
    | none => tbl
    | some s => fun i => if i = s then ⟨digest, txPtr⟩ else tbl i

/-- The probe loop of `findTransaction`; returns the stored pointer, or `0`
(`NULL`) on an empty slot or when the probe wraps.  Fuel as in
`insertLoop`. -/
def findLoop (cap : Nat) (tbl : Nat → HashMapEntry) (digest orig : Nat) : Nat → Nat → Nat
  | idx, 0 =>
    if (tbl idx).digest = 0 then 0
    else if (tbl idx).digest = digest then (tbl idx).transaction
    else 0
  | idx, fuel + 1 =>
    if (tbl idx).digest = 0 then 0
    else if (tbl idx).digest = digest then (tbl idx).transaction
    else
      let idx2 := (idx + 1) % cap
      if idx2 = orig then 0 else findLoop cap tbl digest orig idx2 fuel

/-- `TransactionsDigestAccess::findTransaction`: `NULL` (= `0`) for the
zero digest; otherwise probe linearly from the hash slot. -/
def findTransaction (cap : Nat) (tbl : Nat → HashMapEntry) (digest : Nat) : Nat :=
  if digest = 0 then 0
  else findLoop cap tbl digest (hashFunc cap digest) (hashFunc cap digest) cap

/-- The zeroed digest-index table produced by `TickStorage::init`. -/
def emptyTable : Nat → HashMapEntry := fun _ => ⟨0, 0⟩

/-- A sequence of `insertTransaction` calls. -/
def insertList (cap : Nat) (tbl : Nat → HashMapEntry) : List (Nat × Nat) → (Nat → HashMapEntry)
  | [] => tbl
  | (d, p) :: rest => insertList cap (insertTransaction cap tbl d p) rest

/-- Structural invariant of the open-addressed digest index: occupied slots
hold pairwise distinct digests, and for every occupied slot the whole probe
path from the digest's hash slot up to (excluding) the slot is occupied. -/
structure TableInv (cap : Nat) (tbl : Nat → HashMapEntry) : Prop where
  distinct : ∀ s t, s < cap → t < cap → (tbl s).digest ≠ 0 →
    (tbl s).digest = (tbl t).digest → s = t
  path : ∀ s, s < cap → (tbl s).digest ≠ 0 →
    ∀ i, i < (s + cap - hashFunc cap (tbl s).digest) % cap →
      (tbl ((hashFunc cap (tbl s).digest + i) % cap)).digest ≠ 0

/-- `TickStorage::MetaData` snapshot record. -/
structure MetaData where
  epoch : Nat
  tickBegin : Nat
  tickEnd : Nat
  outTotalTransactionSize : Int
  outNextTickTransactionOffset : Nat
  deriving DecidableEq

/-- The all-zero record written by `TickStorage::saveInvalidateData`. -/
def invalidMetaData : MetaData :=
  { epoch := 0, tickBegin := 0, tickEnd := 0
    outTotalTransactionSize := 0, outNextTickTransactionOffset := 0 }

/-- The snapshot file set, keyed by the epoch encoded into the filenames:
the metadata file's content (or `none` if missing/short), and for each of
the four bulk files whether `loadLargeFile` would succeed on it. -/
structure SnapshotFiles where
  meta : Nat → Option MetaData
  tickDataOk : Bool
  ticksOk : Bool
  offsetsOk : Bool
  transactionsOk : Bool

/-- `TickStorage::saveInvalidateData`: write the all-zero metadata record
under the configured epoch's filename. -/
def saveInvalidateData (fs : SnapshotFiles) (epoch : Nat) : SnapshotFiles :=
  { fs with meta := fun e => if e = epoch then some invalidMetaData else fs.meta e }

/-- In-memory state touched by `TickStorage::tryLoadFromFile`: the
`tickBegin` of the storage, the bump pointer, the `metaData` member, and
flags recording which of the four bulk files have been loaded. -/
structure LoadState where
  tickBegin : Nat
  nextTickTransactionOffset : Nat
  metaData : MetaData
  lastCheckTransactionOffset : Nat
  tickDataLoaded : Bool
  ticksLoaded : Bool
  offsetsLoaded : Bool
  transactionsLoaded : Bool

/-- `TickStorage::initMetaData`. -/
def initMetaData (epoch : Nat) (s : LoadState) : LoadState :=
  { s with
    metaData := { s.metaData with
      tickBegin := s.tickBegin, tickEnd := s.tickBegin, epoch := epoch }
    lastCheckTransactionOffset := s.tickBegin }

/-- `TickStorage::checkMetaData`; `epochConst` is the compile-time `EPOCH`
constant (the check against it is compiled in on firmware builds). -/
def checkMetaData (c : Config) (epochConst curTickBegin : Nat) (md : MetaData) : Bool :=
  if md.tickEnd < md.tickBegin then false
  else if md.tickBegin ≠ curTickBegin then false
  else if md.tickBegin + c.maxTicksPerEpoch < md.tickEnd then false
  else if md.epoch ≠ epochConst then false
  else true

/-- `TickStorage::tryLoadFromFile`: load and validate the metadata, then
load tick data, ticks, offsets and transactions in order; any failure
reinitializes the metadata and returns the phase's non-zero code. -/
def tryLoadFromFile (c : Config) (epochConst : Nat) (fs : SnapshotFiles) (epoch : Nat)
    (s : LoadState) : Nat × LoadState :=
  match fs.meta epoch with
  | none => (1, initMetaData epoch s)
  | some md =>
    let s1 : LoadState := { s with metaData := md }
    if checkMetaData c epochConst s1.tickBegin md = false then (2, initMetaData epoch s1)
    else
      let s2 := { s1 with nextTickTransactionOffset := md.outNextTickTransactionOffset }
      if fs.tickDataOk = false then (5, initMetaData epoch s2)
      else
        let s3 := { s2 with tickDataLoaded := true }
        if fs.ticksOk = false then (4, initMetaData epoch s3)
        else
          let s4 := { s3 with ticksLoaded := true }
          if fs.offsetsOk = false then (3, initMetaData epoch s4)
          else
            let s5 := { s4 with offsetsLoaded := true }
            if fs.transactionsOk = false then (2, initMetaData epoch s5)
            else (0, { s5 with transactionsLoaded := true })

/-- The two spinlock flags of `TxsPool`: `txsDigestsLock` and the
transaction arena's `tickTransactionsLock`. -/
structure Locks where
  txsDigestsLock : Bool
  tickTransactionsLock : Bool
  deriving DecidableEq

/-- `ACQUIRE` on a spinlock, in a model with no concurrent releaser: if the
flag is already held the caller spins forever (`none`), otherwise the flag
becomes held. -/
def acquireFlag (b : Bool) : Option Bool := if b then none else some true

/-- `TxsPool::acquireLock`: acquire `txsDigestsLock`, then the arena lock. -/
def acquireLock (l : Locks) : Option Locks :=
  match acquireFlag l.txsDigestsLock with
  | none => none
  | some d =>
    match acquireFlag l.tickTransactionsLock with
    | none => none
    | some a => some { txsDigestsLock := d, tickTransactionsLock := a }

/-- `TxsPool::releaseLock` as in `src/txs_pool.h`: release the arena lock,
then `txsDigestsLock` (releases never block). -/
def releaseLock (l : Locks) : Locks :=
  let l1 := { l with tickTransactionsLock := false }
  { l1 with txsDigestsLock := false }

/-- `TxsPool::releaseLock` as in the other source variant of the pool
(`unnamed/part_000` lines 93-97): it calls
`transactionsStorage.tickTransactions.acquireLock()` instead of
`releaseLock()`, then releases `txsDigestsLock`. -/
def releaseLockVariant (l : Locks) : Option Locks :=
  match acquireFlag l.tickTransactionsLock with
  | none => none
  | some a => some { l with tickTransactionsLock := a, txsDigestsLock := false }

/-- The scan of `acquireContractLocalsStack`: try slots upward from `i`
(`fuel` slots remain up to `NUMBER_OF_CONTRACT_EXECUTION_PROCESSORS`). -/
def firstFreeFrom (locks : Nat → Bool) : Nat → Nat → Option Nat
  | _, 0 => none
  | i, fuel + 1 => if locks i = false then some i else firstFreeFrom locks (i + 1) fuel

/-- `acquireContractLocalsStack(stackIdx, stacksToIgnore)`: spin with a
pause hint over indices starting at `stacksToIgnore` and wrapping back to
`stacksToIgnore`, until a `TRY_ACQUIRE` succeeds.  Against a fixed lock
state the spin terminates exactly when some slot in
`[stacksToIgnore, n)` is free, returning the smallest free such slot
(`none` models spinning forever); slots `[0, stacksToIgnore)` are never
touched. -/
def acquireContractLocalsStack (n stacksToIgnore : Nat) (locks : Nat → Bool) : Option Nat :=
  firstFreeFrom locks stacksToIgnore (n - stacksToIgnore)

/-- The constant passed by `QpiContextUserFunctionCall::call`
(`stacksNotUsedToReserveThemForStateWriter`). -/
def stacksNotUsedToReserveThemForStateWriter : Nat := 1

/-- The stack acquisition performed by a user function call (a reader):
`acquireContractLocalsStack(_stackIndex, stacksNotUsedToReserveThemForStateWriter)`. -/
def userFunctionCallAcquireStack (n : Nat) (locks : Nat → Bool) : Option Nat :=
  acquireContractLocalsStack n stacksNotUsedToReserveThemForStateWriter locks

/-- Small concrete configuration used by the witnesses. -/
def cfgA : Config :=
  { maxTicksPerEpoch := 1000, ticksToKeep := 100, txPerTick := 2
    firstOffset := 8, maxTxSize := 4, sparseness := 1 }

/-- Tiny concrete configuration used by the witnesses that evaluate whole
states. -/
def cfgB : Config :=
  { maxTicksPerEpoch := 3, ticksToKeep := 2, txPerTick := 2
    firstOffset := 2, maxTxSize := 4, sparseness := 1 }

/-- Trivial digest function used by the witnesses. -/
def ktZero : Tx → Nat := fun _ => 0

/-- Concrete pool state used by the pending-count witness. -/
def poolC3 : Pool :=
  { tickBegin := 5, tickEnd := 7, oldTickBegin := 2, oldTickEnd := 4
    numSavedTxsPerTick := fun i => i, digests := fun _ => 0
    storage := TTStorage.init cfgA }

/-- Concrete storage state used by the storage-rollover witness. -/
def ttsW : TTStorage :=
  { tickBegin := 1, tickEnd := 4, oldTickBegin := 0, oldTickEnd := 0
    offsets := fun i => i + 1, arena := fun i => i
    nextTickTransactionOffset := 6 }

/-- Concrete pool state used by the compaction witness. -/
def poolC4 : Pool :=
  { tickBegin := 1, tickEnd := 4, oldTickBegin := 0, oldTickEnd := 0
    numSavedTxsPerTick := fun i => if i = 0 then 2 else 0
    digests := fun idx => idx + 10
    storage := ttsW }

/-- The number of arena bytes kept by a seamless epoch rollover:
`keep = min(nextTickTransactionOffset - FIRST_TICK_TRANSACTION_OFFSET,
previous-epoch capacity)`. -/
def keepBytes (c : Config) (s : TTStorage) : Nat :=
  min (s.nextTickTransactionOffset - c.firstOffset) c.prevArenaSize

/-- `firstToKeepOffset = nextTickTransactionOffset - keep`. -/
def firstToKeepOffset (c : Config) (s : TTStorage) : Nat :=
  s.nextTickTransactionOffset - keepBytes c s

/-- `offsetDelta = (current-epoch region size + keep) - nextTickTransactionOffset`. -/
def offsetDelta (c : Config) (s : TTStorage) : Nat :=
  c.curArenaSize + keepBytes c s - s.nextTickTransactionOffset

/-- Start of the kept tick range of a seamless rollover to `t`:
`newInitialTick - TICKS_TO_KEEP_FROM_PRIOR_EPOCH` clamped to `tickBegin`
(assuming no `unsigned int` wraparound). -/
def keptOldBegin (c : Config) (s : TTStorage) (t : Nat) : Nat :=
  max (t - c.ticksToKeep) s.tickBegin

/-! ## Theorems -/

theorem sub32_eq_sub {a b : Nat} (hba : b ≤ a) (ha : a < U32) : sub32 a b = a - b := by
  unfold sub32 U32 at *
  have hb : b % 4294967296 = b := Nat.mod_eq_of_lt (lt_of_le_of_lt hba ha)
  rw [hb]
  have h1 : a + 4294967296 - b = (a - b) + 4294967296 := by omega
  rw [h1, Nat.add_mod_right]
  exact Nat.mod_eq_of_lt (by omega)

theorem add32_eq_add {a b : Nat} (h : a + b < U32) : add32 a b = a + b := by
  unfold add32
  exact Nat.mod_eq_of_lt h

theorem sumIco_empty (f : Nat → Nat) (a : Nat) : sumIco f a a = 0 := by
  simp [sumIco, sumFrom]

/-- Claim C10: in the state after `TxsPool::init` (all tick ranges zero),
no tick is classified as stored in either epoch range, `update` returns
`false` and leaves the state unchanged for every transaction, and
`get`/`getDigest` return `nullptr` for every `(tick, index)` pair. -/
theorem init_state_rejects_everything (c : Config) (kt : Tx → Nat) (tx : Tx)
    (tick index : Nat) :
    (Pool.init c).tickInCurrentEpochStorage tick = false ∧
    (Pool.init c).tickInPreviousEpochStorage tick = false ∧
    (Pool.init c).update c kt tx = (false, Pool.init c) ∧
    (Pool.init c).get c tick index = none ∧
    (Pool.init c).getDigest c tick index = none := by
  refine ⟨?_, ?_, ?_, ?_, ?_⟩ <;>
    simp [Pool.init, Pool.update, Pool.get, Pool.getDigest,
      Pool.tickInCurrentEpochStorage, Pool.tickInPreviousEpochStorage]

/-- Claim C1: `TxsPool::update(tx)` returns `true` iff the transaction is
valid, its tick is in the current-epoch range, the per-tick counter is
below `NUMBER_OF_TRANSACTIONS_PER_TICK` and the bump fit holds; on success
it writes the digest at `[tickIndex][count]`, copies the bytes into the
arena at the old bump offset, stores that offset in the slot table at the
same position, advances the bump pointer by `totalSize()` and increments
the counter by exactly one; on failure it leaves the state unchanged. -/
theorem update_spec (c : Config) (kt : Tx → Nat) (p : Pool) (tx : Tx) :
    ((p.update c kt tx).1 = true ↔
      (tx.valid = true ∧ p.tickInCurrentEpochStorage tx.tick = true ∧
        p.numSavedTxsPerTick (tx.tick - p.tickBegin) < c.txPerTick ∧
        p.storage.nextTickTransactionOffset + tx.size ≤ c.curArenaSize)) ∧
    ((p.update c kt tx).1 = true →
      ((p.update c kt tx).2.digests
          ((tx.tick - p.tickBegin) * c.txPerTick +
            p.numSavedTxsPerTick (tx.tick - p.tickBegin)) = kt tx ∧
        (p.update c kt tx).2.storage.offsets
          ((tx.tick - p.tickBegin) * c.txPerTick +
            p.numSavedTxsPerTick (tx.tick - p.tickBegin)) =
          p.storage.nextTickTransactionOffset ∧
        (∀ i, i < tx.size →
          (p.update c kt tx).2.storage.arena (p.storage.nextTickTransactionOffset + i) =
            tx.bytes i) ∧
        (p.update c kt tx).2.storage.nextTickTransactionOffset =
          p.storage.nextTickTransactionOffset + tx.size ∧
        (p.update c kt tx).2.numSavedTxsPerTick (tx.tick - p.tickBegin) =
          p.numSavedTxsPerTick (tx.tick - p.tickBegin) + 1)) ∧
    ((p.update c kt tx).1 = false → (p.update c kt tx).2 = p) := by
  unfold Pool.update Pool.tickToIndexCurrentEpoch
  by_cases h1 : tx.valid = true ∧ p.tickInCurrentEpochStorage tx.tick = true
  · by_cases h2 : p.numSavedTxsPerTick (tx.tick - p.tickBegin) < c.txPerTick ∧
        p.storage.nextTickTransactionOffset + tx.size ≤ c.curArenaSize
    · rw [if_pos h1, if_pos h2]
      refine ⟨by simpa using ⟨h1.1, h1.2, h2.1, h2.2⟩, fun _ => ⟨?_, ?_, ?_, rfl, ?_⟩,
        fun hfalse => by simp at hfalse⟩
      · simp
      · simp
      · intro i hi
        simp only
        rw [if_pos ⟨Nat.le_add_right _ _, by omega⟩, Nat.add_sub_cancel_left]
      · simp
    · rw [if_pos h1, if_neg h2]
      exact ⟨iff_of_false (by simp) (fun hco => h2 ⟨hco.2.2.1, hco.2.2.2⟩),
        fun htrue => by simp at htrue, fun _ => rfl⟩
  · rw [if_neg h1]
    exact ⟨iff_of_false (by simp) (fun hco => h1 ⟨hco.1, hco.2.1⟩),
      fun htrue => by simp at htrue, fun _ => rfl⟩

/-- Claim C8 (checked against both source variants): the
`src/txs_pool.h` pair works — `acquireLock` takes the digest lock then the
arena lock, `releaseLock` releases them in reverse order, and the
round-trip from the free state returns both flags to free — while the
`unnamed/part_000` variant's `releaseLock`, run right after `acquireLock`,
re-acquires the already-held arena lock and spins forever (and thus never
frees it). -/
theorem lock_roundtrip_and_variant_deadlock :
    acquireLock { txsDigestsLock := false, tickTransactionsLock := false } =
      some { txsDigestsLock := true, tickTransactionsLock := true } ∧
    releaseLock { txsDigestsLock := true, tickTransactionsLock := true } =
      { txsDigestsLock := false, tickTransactionsLock := false } ∧
    releaseLockVariant { txsDigestsLock := true, tickTransactionsLock := true } = none := by
  exact ⟨rfl, rfl, rfl⟩

/-- Claim C9 counterexample: with `NUMBER_OF_CONTRACT_EXECUTION_PROCESSORS
= 2` and the user-function-call value `stacksToIgnore = 1`, the reader
acquires the highest-index slot 1 when all slots are free, and spins
forever when only the lowest-index slot 0 is free: the slot a reader can
never acquire is the low-index slot 0, not a high-index one. -/
theorem reader_reserved_slot_is_low_index :
    userFunctionCallAcquireStack 2 (fun _ => false) = some 1 ∧
    userFunctionCallAcquireStack 2 (fun i => decide (1 ≤ i)) = none := by
  exact ⟨rfl, rfl⟩

theorem firstFreeFrom_bounds (locks : Nat → Bool) :
    ∀ fuel start i, firstFreeFrom locks start fuel = some i → start ≤ i ∧ i < start + fuel := by
  intro fuel
  induction fuel with
  | zero => intro start i h; simp [firstFreeFrom] at h
  | succ fuel ih =>
    intro start i h
    unfold firstFreeFrom at h
    by_cases hl : locks start = false
    · rw [if_pos hl] at h
      cases h
      omega
    · rw [if_neg hl] at h
      have := ih (start + 1) i h
      omega

/-- Claim C9 (amended): `acquireContractLocalsStack(stackIdx,
stacksToIgnore)` only ever returns a slot index in
`[stacksToIgnore, NUMBER_OF_CONTRACT_EXECUTION_PROCESSORS)`, and a user
function call, which passes `stacksToIgnore = 1` to request a reader slot,
thereby keeps the low-index slot 0 excluded from reader acquisition and
reserved for state-writing procedure calls (the reserved slot a reader can
never acquire is slot 0). -/
theorem acquire_stack_slot_range (n stacksToIgnore : Nat) (locks : Nat → Bool) :
    (∀ i, acquireContractLocalsStack n stacksToIgnore locks = some i →
      stacksToIgnore ≤ i ∧ i < n) ∧
    (∀ j, userFunctionCallAcquireStack n locks = some j → 1 ≤ j ∧ j < n ∧ j ≠ 0) := by
  constructor
  · intro i h
    have := firstFreeFrom_bounds locks (n - stacksToIgnore) stacksToIgnore i h
    omega
  · intro j h
    have := firstFreeFrom_bounds locks (n - 1) 1 j h
    omega

theorem acquire_stack_slot_range_witness :
    acquireContractLocalsStack 2 1 (fun _ => false) = some 1 ∧ (1 ≤ 1 ∧ 1 < 2) :=
  ⟨rfl, (acquire_stack_slot_range 2 1 (fun _ => false)).1 1 rfl⟩

/-- Claim C7 counterexample: when the compile-time epoch constant is 0 and
the in-memory `tickBegin` is 0 (cold start), a `tryLoadFromFile` right
after `saveInvalidateData` passes the metadata validation and returns 0,
loading all four bulk files — the claim's "any subsequent tryLoadFromFile
... fails metadata validation, returns a non-zero code" fails there. -/
theorem invalidate_load_succeeds_when_epoch_const_zero :
    (tryLoadFromFile cfgA 0
        (saveInvalidateData ⟨fun _ => none, true, true, true, true⟩ 7) 7
        ⟨0, 8, invalidMetaData, 0, false, false, false, false⟩).1 = 0 ∧
    (tryLoadFromFile cfgA 0
        (saveInvalidateData ⟨fun _ => none, true, true, true, true⟩ 7) 7
        ⟨0, 8, invalidMetaData, 0, false, false, false, false⟩).2.transactionsLoaded = true := by
  exact ⟨rfl, rfl⟩

theorem checkMetaData_invalid_false (c : Config) (epochConst curTickBegin : Nat)
    (h : epochConst ≠ 0) :
    checkMetaData c epochConst curTickBegin invalidMetaData = false := by
  simp only [checkMetaData, invalidMetaData]
  by_cases hb : curTickBegin = 0
  · subst hb
    rw [if_neg (by omega), if_neg (by simp), if_neg (by omega), if_pos (Ne.symm h)]
  · rw [if_neg (by omega), if_pos (by omega)]

/-- Claim C7 (amended): `saveInvalidateData(epoch)` writes a metadata
record whose five fields are all zero under the configured epoch's
filename, and — provided the compile-time epoch constant `EPOCH` checked
by `checkMetaData` is non-zero — any subsequent `tryLoadFromFile` for that
epoch fails metadata validation, returns the non-zero code 2,
reinitializes the metadata, and loads none of the tick-data, ticks, offset,
or transaction files, leaving the in-memory stores unchanged at their
cold-start defaults. -/
theorem invalidate_then_load_fails (c : Config) (epochConst : Nat) (fs : SnapshotFiles)
    (epoch : Nat) (s : LoadState) (h : epochConst ≠ 0) :
    (saveInvalidateData fs epoch).meta epoch = some invalidMetaData ∧
    invalidMetaData.epoch = 0 ∧ invalidMetaData.tickBegin = 0 ∧
    invalidMetaData.tickEnd = 0 ∧ invalidMetaData.outTotalTransactionSize = 0 ∧
    invalidMetaData.outNextTickTransactionOffset = 0 ∧
    (tryLoadFromFile c epochConst (saveInvalidateData fs epoch) epoch s).1 = 2 ∧
    (tryLoadFromFile c epochConst (saveInvalidateData fs epoch) epoch s).2 =
      initMetaData epoch { s with metaData := invalidMetaData } ∧
    (tryLoadFromFile c epochConst (saveInvalidateData fs epoch) epoch s).2.tickDataLoaded =
      s.tickDataLoaded ∧
    (tryLoadFromFile c epochConst (saveInvalidateData fs epoch) epoch s).2.ticksLoaded =
      s.ticksLoaded ∧
    (tryLoadFromFile c epochConst (saveInvalidateData fs epoch) epoch s).2.offsetsLoaded =
      s.offsetsLoaded ∧
    (tryLoadFromFile c epochConst (saveInvalidateData fs epoch) epoch s).2.transactionsLoaded =
      s.transactionsLoaded ∧
    (tryLoadFromFile c epochConst (saveInvalidateData fs epoch) epoch s).2.nextTickTransactionOffset =
      s.nextTickTransactionOffset ∧
    (tryLoadFromFile c epochConst (saveInvalidateData fs epoch) epoch s).2.tickBegin =
      s.tickBegin ∧
    (tryLoadFromFile c epochConst (saveInvalidateData fs epoch) epoch s).2.metaData.epoch =
      epoch ∧
    (tryLoadFromFile c epochConst (saveInvalidateData fs epoch) epoch s).2.metaData.tickBegin =
      s.tickBegin ∧
    (tryLoadFromFile c epochConst (saveInvalidateData fs epoch) epoch s).2.metaData.tickEnd =
      s.tickBegin := by
  have hmeta : (saveInvalidateData fs epoch).meta epoch = some invalidMetaData := by
    unfold saveInvalidateData
    simp
  have hload : tryLoadFromFile c epochConst (saveInvalidateData fs epoch) epoch s =
      (2, initMetaData epoch { s with metaData := invalidMetaData }) := by
    unfold tryLoadFromFile
    rw [hmeta]
    simp [checkMetaData_invalid_false c epochConst s.tickBegin h]
  refine ⟨hmeta, rfl, rfl, rfl, rfl, rfl, ?_, ?_, ?_, ?_, ?_, ?_, ?_, ?_, ?_, ?_, ?_⟩ <;>
    rw [hload] <;> rfl

/-- Claim C3: `getNumberOfPendingTxs(t)` returns the sum of per-tick
saved-transaction counts over all stored ticks strictly after `t` in
temporal order: over `[t+1, oldTickEnd) ∪ [tickBegin, tickEnd)` when `t`
is in the previous-epoch range, over `(t, tickEnd)` when `t` is in the
current-epoch range, over both full ranges when `t` is before both ranges
(including a cold-start state with an empty previous-epoch range and
`t < tickBegin`), and 0 when `t` is at or after `tickEnd`. -/
theorem pending_txs_cases (c : Config) (p : Pool)
    (h1 : p.oldTickBegin ≤ p.oldTickEnd) (h2 : p.oldTickEnd ≤ p.tickBegin)
    (h3 : p.tickBegin ≤ p.tickEnd) (h4 : p.oldTickBegin = 0 → p.oldTickEnd = 0)
    (tick : Nat) :
    ((p.oldTickBegin ≤ tick ∧ tick < p.oldTickEnd) →
      p.getNumberOfPendingTxs c tick =
        sumIco (fun t => p.numSavedTxsPerTick (p.tickToIndexPreviousEpoch c t))
            (tick + 1) p.oldTickEnd +
          sumIco (fun t => p.numSavedTxsPerTick (p.tickToIndexCurrentEpoch t))
            p.tickBegin p.tickEnd) ∧
    ((p.tickBegin ≤ tick ∧ tick < p.tickEnd) →
      p.getNumberOfPendingTxs c tick =
        sumIco (fun t => p.numSavedTxsPerTick (p.tickToIndexCurrentEpoch t))
          (tick + 1) p.tickEnd) ∧
    ((tick < p.oldTickBegin ∨ (p.oldTickEnd = 0 ∧ tick < p.tickBegin)) →
      p.getNumberOfPendingTxs c tick =
        sumIco (fun t => p.numSavedTxsPerTick (p.tickToIndexPreviousEpoch c t))
            p.oldTickBegin p.oldTickEnd +
          sumIco (fun t => p.numSavedTxsPerTick (p.tickToIndexCurrentEpoch t))
            p.tickBegin p.tickEnd) ∧
    (p.tickEnd ≤ tick → p.getNumberOfPendingTxs c tick = 0) := by
  refine ⟨?_, ?_, ?_, ?_⟩
  · rintro ⟨ha, hb⟩
    by_cases hz : p.oldTickBegin = 0
    · have := h4 hz
      omega
    · have cond1 : ¬(tick < p.oldTickBegin ∨ (p.oldTickBegin = 0 ∧ tick < p.tickBegin)) := by
        rintro (hc | ⟨hc, _⟩)
        · omega
        · exact hz hc
      have cond2 : p.tickInPreviousEpochStorage tick = true := by
        simp only [Pool.tickInPreviousEpochStorage, Bool.and_eq_true, decide_eq_true_eq]
        exact ⟨ha, hb⟩
      unfold Pool.getNumberOfPendingTxs Pool.pendingStartTicks
      rw [if_neg cond1, if_pos cond2]
      exact Nat.add_comm _ _
  · rintro ⟨ha, hb⟩
    have cond1 : ¬(tick < p.oldTickBegin ∨ (p.oldTickBegin = 0 ∧ tick < p.tickBegin)) := by
      omega
    have cond2 : ¬(p.tickInPreviousEpochStorage tick = true) := by
      simp only [Pool.tickInPreviousEpochStorage, Bool.and_eq_true, decide_eq_true_eq]
      omega
    have cond3 : p.tickInCurrentEpochStorage tick = true := by
      simp only [Pool.tickInCurrentEpochStorage, Bool.and_eq_true, decide_eq_true_eq]
      exact ⟨ha, hb⟩
    unfold Pool.getNumberOfPendingTxs Pool.pendingStartTicks
    rw [if_neg cond1, if_neg cond2, if_pos cond3]
    simp only [sumIco_empty, Nat.add_zero]
  · intro h
    have cond1 : tick < p.oldTickBegin ∨ (p.oldTickBegin = 0 ∧ tick < p.tickBegin) := by
      rcases h with hc | ⟨hc, ht⟩
      · exact Or.inl hc
      · exact Or.inr ⟨by omega, ht⟩
    unfold Pool.getNumberOfPendingTxs Pool.pendingStartTicks
    rw [if_pos cond1]
    exact Nat.add_comm _ _
  · intro ht
    have cond1 : ¬(tick < p.oldTickBegin ∨ (p.oldTickBegin = 0 ∧ tick < p.tickBegin)) := by
      omega
    have cond2 : ¬(p.tickInPreviousEpochStorage tick = true) := by
      simp only [Pool.tickInPreviousEpochStorage, Bool.and_eq_true, decide_eq_true_eq]
      omega
    have cond3 : ¬(p.tickInCurrentEpochStorage tick = true) := by
      simp only [Pool.tickInCurrentEpochStorage, Bool.and_eq_true, decide_eq_true_eq]
      omega
    unfold Pool.getNumberOfPendingTxs Pool.pendingStartTicks
    rw [if_neg cond1, if_neg cond2, if_neg cond3]
    simp only [sumIco_empty, Nat.add_zero]

theorem pending_txs_cases_witness :
    ((2 : Nat) ≤ 4 ∧ (4 : Nat) ≤ 5 ∧ (5 : Nat) ≤ 7 ∧ ((2 : Nat) = 0 → (4 : Nat) = 0)) ∧
    (((poolC3.oldTickBegin ≤ 3 ∧ 3 < poolC3.oldTickEnd) →
      poolC3.getNumberOfPendingTxs cfgA 3 =
        sumIco (fun t => poolC3.numSavedTxsPerTick (poolC3.tickToIndexPreviousEpoch cfgA t))
            (3 + 1) poolC3.oldTickEnd +
          sumIco (fun t => poolC3.numSavedTxsPerTick (poolC3.tickToIndexCurrentEpoch t))
            poolC3.tickBegin poolC3.tickEnd) ∧
    ((poolC3.tickBegin ≤ 3 ∧ 3 < poolC3.tickEnd) →
      poolC3.getNumberOfPendingTxs cfgA 3 =
        sumIco (fun t => poolC3.numSavedTxsPerTick (poolC3.tickToIndexCurrentEpoch t))
          (3 + 1) poolC3.tickEnd) ∧
    ((3 < poolC3.oldTickBegin ∨ (poolC3.oldTickEnd = 0 ∧ 3 < poolC3.tickBegin)) →
      poolC3.getNumberOfPendingTxs cfgA 3 =
        sumIco (fun t => poolC3.numSavedTxsPerTick (poolC3.tickToIndexPreviousEpoch cfgA t))
            poolC3.oldTickBegin poolC3.oldTickEnd +
          sumIco (fun t => poolC3.numSavedTxsPerTick (poolC3.tickToIndexCurrentEpoch t))
            poolC3.tickBegin poolC3.tickEnd) ∧
    (poolC3.tickEnd ≤ 3 → poolC3.getNumberOfPendingTxs cfgA 3 = 0)) :=
  ⟨⟨by decide, by decide, by decide, by decide⟩,
    pending_txs_cases cfgA poolC3 (by decide) (by decide) (by decide) (by decide) 3⟩

theorem update_snd_ranges (c : Config) (kt : Tx → Nat) (p : Pool) (tx : Tx) :
    (p.update c kt tx).2.tickBegin = p.tickBegin ∧
    (p.update c kt tx).2.tickEnd = p.tickEnd ∧
    (p.update c kt tx).2.oldTickBegin = p.oldTickBegin ∧
    (p.update c kt tx).2.oldTickEnd = p.oldTickEnd ∧
    (p.update c kt tx).2.storage.tickBegin = p.storage.tickBegin ∧
    (p.update c kt tx).2.storage.tickEnd = p.storage.tickEnd ∧
    (p.update c kt tx).2.storage.oldTickBegin = p.storage.oldTickBegin ∧
    (p.update c kt tx).2.storage.oldTickEnd = p.storage.oldTickEnd := by
  unfold Pool.update
  by_cases ha : tx.valid = true ∧ p.tickInCurrentEpochStorage tx.tick = true
  · by_cases hb : p.numSavedTxsPerTick (p.tickToIndexCurrentEpoch tx.tick) < c.txPerTick ∧
        p.storage.nextTickTransactionOffset + tx.size ≤ c.curArenaSize
    · rw [if_pos ha, if_pos hb]
      exact ⟨rfl, rfl, rfl, rfl, rfl, rfl, rfl, rfl⟩
    · rw [if_pos ha, if_neg hb]
      exact ⟨rfl, rfl, rfl, rfl, rfl, rfl, rfl, rfl⟩
  · rw [if_neg ha]
    exact ⟨rfl, rfl, rfl, rfl, rfl, rfl, rfl, rfl⟩

theorem tts_beginEpoch_range_inv (c : Config) (s : TTStorage) (t : Nat)
    (hk : c.ticksToKeep ≤ t) (hw : t + c.maxTicksPerEpoch < U32) :
    (s.beginEpoch c t).oldTickEnd ≤ (s.beginEpoch c t).tickBegin ∧
    (s.beginEpoch c t).tickBegin ≤ (s.beginEpoch c t).tickEnd ∧
    (s.beginEpoch c t).tickEnd - (s.beginEpoch c t).tickBegin ≤ c.maxTicksPerEpoch ∧
    (s.beginEpoch c t).oldTickBegin ≤ (s.beginEpoch c t).oldTickEnd ∧
    (s.beginEpoch c t).oldTickEnd - (s.beginEpoch c t).oldTickBegin ≤ c.ticksToKeep := by
  have hadd : add32 t c.maxTicksPerEpoch = t + c.maxTicksPerEpoch := add32_eq_add hw
  have hsub : sub32 t c.ticksToKeep = t - c.ticksToKeep :=
    sub32_eq_sub hk (by omega)
  unfold TTStorage.beginEpoch
  by_cases hseam : s.tickBegin ≠ 0 ∧ s.tickInCurrentEpochStorage t = true ∧ s.tickBegin < t
  · rw [if_pos hseam]
    simp only [hadd, hsub]
    have hlt := hseam.2.2
    by_cases hclamp : t - c.ticksToKeep < s.tickBegin
    · rw [if_pos hclamp]
      refine ⟨by omega, by omega, by omega, by omega, by omega⟩
    · rw [if_neg hclamp]
      refine ⟨by omega, by omega, by omega, by omega, by omega⟩
  · rw [if_neg hseam]
    simp only [hadd]
    refine ⟨by omega, by omega, by omega, by omega, by omega⟩

theorem beginEpoch_range_inv (c : Config) (p : Pool) (t : Nat)
    (hk : c.ticksToKeep ≤ t) (hw : t + c.maxTicksPerEpoch < U32) :
    (p.beginEpoch c t).oldTickEnd ≤ (p.beginEpoch c t).tickBegin ∧
    (p.beginEpoch c t).tickBegin ≤ (p.beginEpoch c t).tickEnd ∧
    (p.beginEpoch c t).tickEnd - (p.beginEpoch c t).tickBegin ≤ c.maxTicksPerEpoch ∧
    (p.beginEpoch c t).oldTickBegin ≤ (p.beginEpoch c t).oldTickEnd ∧
    (p.beginEpoch c t).oldTickEnd - (p.beginEpoch c t).oldTickBegin ≤ c.ticksToKeep ∧
    (p.beginEpoch c t).storage.tickBegin = (TTStorage.beginEpoch c p.storage t).tickBegin ∧
    (p.beginEpoch c t).storage.tickEnd = (TTStorage.beginEpoch c p.storage t).tickEnd ∧
    (p.beginEpoch c t).storage.oldTickBegin =
      (TTStorage.beginEpoch c p.storage t).oldTickBegin ∧
    (p.beginEpoch c t).storage.oldTickEnd =
      (TTStorage.beginEpoch c p.storage t).oldTickEnd := by
  have hadd : add32 t c.maxTicksPerEpoch = t + c.maxTicksPerEpoch := add32_eq_add hw
  have hsub : sub32 t c.ticksToKeep = t - c.ticksToKeep :=
    sub32_eq_sub hk (by omega)
  unfold Pool.beginEpoch
  by_cases hseam : p.tickBegin ≠ 0 ∧ p.tickInCurrentEpochStorage t = true ∧ p.tickBegin < t
  · rw [if_pos hseam]
    simp only [hadd, hsub]
    have hlt := hseam.2.2
    by_cases hclamp : t - c.ticksToKeep < p.tickBegin
    · rw [if_pos hclamp]
      refine ⟨?_, ?_, ?_, ?_, ?_, ?_, ?_, ?_, ?_⟩ <;> first | trivial | omega
    · rw [if_neg hclamp]
      refine ⟨?_, ?_, ?_, ?_, ?_, ?_, ?_, ?_, ?_⟩ <;> first | trivial | omega
  · rw [if_neg hseam]
    simp only [hadd]
    refine ⟨?_, ?_, ?_, ?_, ?_, ?_, ?_, ?_, ?_⟩ <;> first | trivial | omega

/-- Claim C5 counterexample: the tick-range invariants do *not* hold for
every reachable state: with `TICKS_TO_KEEP_FROM_PRIOR_EPOCH = 100`, after
`init`, `beginEpoch(1)` and `beginEpoch(50)` the unsigned subtraction
`newInitialTick - TICKS_TO_KEEP_FROM_PRIOR_EPOCH` wraps around, leaving
`oldTickBegin = 2^32 - 50 > oldTickEnd = 50`. -/
theorem reached_state_violating_invariant :
    Reached cfgA ktZero (((Pool.init cfgA).beginEpoch cfgA 1).beginEpoch cfgA 50) ∧
    ¬ ((((Pool.init cfgA).beginEpoch cfgA 1).beginEpoch cfgA 50).oldTickBegin ≤
        (((Pool.init cfgA).beginEpoch cfgA 1).beginEpoch cfgA 50).oldTickEnd) := by
  refine ⟨Reached.beginEpoch _ 50 (Reached.beginEpoch _ 1 Reached.init), ?_⟩
  decide

/-- Claim C5 (amended): for every state reachable by `init` followed by
`beginEpoch` and `update` calls in which every `beginEpoch` argument
avoids `unsigned int` wraparound (`TICKS_TO_KEEP_FROM_PRIOR_EPOCH ≤
newInitialTick` and `newInitialTick + MAX_NUMBER_OF_TICKS_PER_EPOCH <
2^32`), the tick-range invariants hold in the pool and in its transaction
storage: `oldTickEnd ≤ tickBegin`, `tickBegin ≤ tickEnd` with
`tickEnd - tickBegin ≤ MAX_NUMBER_OF_TICKS_PER_EPOCH`, and
`oldTickBegin ≤ oldTickEnd` with
`oldTickEnd - oldTickBegin ≤ TICKS_TO_KEEP_FROM_PRIOR_EPOCH`; in
particular every such `beginEpoch` preserves them. -/
theorem reachedSafe_tick_range_invariants (c : Config) (kt : Tx → Nat) (p : Pool)
    (h : ReachedSafe c kt p) :
    p.oldTickEnd ≤ p.tickBegin ∧ p.tickBegin ≤ p.tickEnd ∧
    p.tickEnd - p.tickBegin ≤ c.maxTicksPerEpoch ∧
    p.oldTickBegin ≤ p.oldTickEnd ∧ p.oldTickEnd - p.oldTickBegin ≤ c.ticksToKeep ∧
    p.storage.oldTickEnd ≤ p.storage.tickBegin ∧
    p.storage.tickBegin ≤ p.storage.tickEnd ∧
    p.storage.tickEnd - p.storage.tickBegin ≤ c.maxTicksPerEpoch ∧
    p.storage.oldTickBegin ≤ p.storage.oldTickEnd ∧
    p.storage.oldTickEnd - p.storage.oldTickBegin ≤ c.ticksToKeep := by
  induction h with
  | init =>
    refine ⟨?_, ?_, ?_, ?_, ?_, ?_, ?_, ?_, ?_, ?_⟩ <;>
      simp [Pool.init, TTStorage.init]
  | beginEpoch q t h1 h2 hr ih =>
    obtain ⟨e1, e2, e3, e4, e5, g1, g2, g3, g4⟩ := beginEpoch_range_inv c q t h1 h2
    obtain ⟨f1, f2, f3, f4, f5⟩ := tts_beginEpoch_range_inv c q.storage t h1 h2
    rw [g1, g2, g3, g4]
    exact ⟨e1, e2, e3, e4, e5, f1, f2, f3, f4, f5⟩
  | update q tx hr ih =>
    obtain ⟨e1, e2, e3, e4, e5, e6, e7, e8⟩ := update_snd_ranges c kt q tx
    rw [e1, e2, e3, e4, e5, e6, e7, e8]
    exact ih

theorem reachedSafe_tick_range_invariants_witness :
    ReachedSafe cfgA ktZero ((Pool.init cfgA).beginEpoch cfgA 200) ∧
    (((Pool.init cfgA).beginEpoch cfgA 200).oldTickEnd ≤
        ((Pool.init cfgA).beginEpoch cfgA 200).tickBegin ∧
      ((Pool.init cfgA).beginEpoch cfgA 200).tickBegin ≤
        ((Pool.init cfgA).beginEpoch cfgA 200).tickEnd ∧
      ((Pool.init cfgA).beginEpoch cfgA 200).tickEnd -
          ((Pool.init cfgA).beginEpoch cfgA 200).tickBegin ≤ cfgA.maxTicksPerEpoch ∧
      ((Pool.init cfgA).beginEpoch cfgA 200).oldTickBegin ≤
        ((Pool.init cfgA).beginEpoch cfgA 200).oldTickEnd ∧
      ((Pool.init cfgA).beginEpoch cfgA 200).oldTickEnd -
          ((Pool.init cfgA).beginEpoch cfgA 200).oldTickBegin ≤ cfgA.ticksToKeep ∧
      ((Pool.init cfgA).beginEpoch cfgA 200).storage.oldTickEnd ≤
        ((Pool.init cfgA).beginEpoch cfgA 200).storage.tickBegin ∧
      ((Pool.init cfgA).beginEpoch cfgA 200).storage.tickBegin ≤
        ((Pool.init cfgA).beginEpoch cfgA 200).storage.tickEnd ∧
      ((Pool.init cfgA).beginEpoch cfgA 200).storage.tickEnd -
          ((Pool.init cfgA).beginEpoch cfgA 200).storage.tickBegin ≤ cfgA.maxTicksPerEpoch ∧
      ((Pool.init cfgA).beginEpoch cfgA 200).storage.oldTickBegin ≤
        ((Pool.init cfgA).beginEpoch cfgA 200).storage.oldTickEnd ∧
      ((Pool.init cfgA).beginEpoch cfgA 200).storage.oldTickEnd -
          ((Pool.init cfgA).beginEpoch cfgA 200).storage.oldTickBegin ≤ cfgA.ticksToKeep) :=
  ⟨ReachedSafe.beginEpoch _ 200 (by decide) (by decide) ReachedSafe.init,
    reachedSafe_tick_range_invariants cfgA ktZero _
      (ReachedSafe.beginEpoch _ 200 (by decide) (by decide) ReachedSafe.init)⟩

theorem rowcol_div {T : Nat} (m j : Nat) (hj : j < T) : (m * T + j) / T = m := by
  have hT : 0 < T := lt_of_le_of_lt (Nat.zero_le j) hj
  rw [Nat.mul_comm m T, Nat.mul_add_div hT, Nat.div_eq_of_lt hj, Nat.add_zero]

theorem rowcol_mod {T : Nat} (m j : Nat) (hj : j < T) : (m * T + j) % T = j := by
  rw [Nat.mul_comm m T, Nat.mul_add_mod, Nat.mod_eq_of_lt hj]

/-- Claim C2: on a seamless transition (`tickBegin` non-zero,
`newInitialTick` in `(tickBegin, tickEnd)`),
`TickTransactionsStorage::beginEpoch` keeps exactly
`keep = min(nextTickTransactionOffset - FIRST_TICK_TRANSACTION_OFFSET,
previous-epoch capacity)` bytes: it copies the last `keep` bytes of the
current-epoch arena to the start of the previous-epoch region, rewrites
every surviving slot-table offset of the kept ticks by adding
`offsetDelta`, zeroes every slot whose offset is zero or below
`firstToKeepOffset`, zeroes the whole current-epoch arena and the
current-epoch half of the slot table, and resets
`nextTickTransactionOffset` to `FIRST_TICK_TRANSACTION_OFFSET`. -/
theorem storage_beginEpoch_spec (c : Config) (s : TTStorage) (t : Nat)
    (hb : s.tickBegin ≠ 0) (hlt : s.tickBegin < t) (hend : t < s.tickEnd)
    (hk : c.ticksToKeep ≤ t) (hu : t < U32)
    (hf : c.firstOffset ≤ s.nextTickTransactionOffset)
    (hcap : s.nextTickTransactionOffset ≤ c.curArenaSize) :
    (s.beginEpoch c t).oldTickEnd = t ∧
    (s.beginEpoch c t).oldTickBegin = keptOldBegin c s t ∧
    (s.beginEpoch c t).nextTickTransactionOffset = c.firstOffset ∧
    (∀ i, i < keepBytes c s →
      (s.beginEpoch c t).arena (c.curArenaSize + i) = s.arena (firstToKeepOffset c s + i)) ∧
    (∀ i, i < c.curArenaSize → (s.beginEpoch c t).arena i = 0) ∧
    (∀ idx, idx < c.maxTicksPerEpoch * c.txPerTick → (s.beginEpoch c t).offsets idx = 0) ∧
    (∀ tk j, keptOldBegin c s t ≤ tk → tk < t → j < c.txPerTick →
      (s.beginEpoch c t).offsets
          ((tk - keptOldBegin c s t + c.maxTicksPerEpoch) * c.txPerTick + j) =
        if s.offsets ((tk - s.tickBegin) * c.txPerTick + j) = 0 ∨
            s.offsets ((tk - s.tickBegin) * c.txPerTick + j) < firstToKeepOffset c s then 0
        else s.offsets ((tk - s.tickBegin) * c.txPerTick + j) + offsetDelta c s) := by
  have hcur : s.tickInCurrentEpochStorage t = true := by
    simp only [TTStorage.tickInCurrentEpochStorage, Bool.and_eq_true, decide_eq_true_eq]
    exact ⟨Nat.le_of_lt hlt, hend⟩
  have hseam : s.tickBegin ≠ 0 ∧ s.tickInCurrentEpochStorage t = true ∧ s.tickBegin < t :=
    ⟨hb, hcur, hlt⟩
  have hsub : sub32 t c.ticksToKeep = t - c.ticksToKeep := sub32_eq_sub hk hu
  have hkeepIf : (if s.nextTickTransactionOffset - c.firstOffset ≤ c.prevArenaSize then
      s.nextTickTransactionOffset - c.firstOffset else c.prevArenaSize) = keepBytes c s := by
    unfold keepBytes
    rw [Nat.min_def]
  have holdB : (if sub32 t c.ticksToKeep < s.tickBegin then s.tickBegin
      else sub32 t c.ticksToKeep) = keptOldBegin c s t := by
    rw [hsub]
    unfold keptOldBegin
    split <;> omega
  unfold TTStorage.beginEpoch
  rw [if_pos hseam]
  simp only [hkeepIf, holdB]
  refine ⟨trivial, trivial, trivial, ?_, ?_, ?_, ?_⟩
  · intro i hi
    rw [if_neg (by omega : ¬ (c.curArenaSize + i < c.curArenaSize)),
      if_pos ⟨Nat.le_add_right _ _, by omega⟩, Nat.add_sub_cancel_left]
    rfl
  · intro i hi
    rw [if_pos hi]
  · intro idx hidx
    rw [if_pos hidx]
  · intro tk j htk1 htk2 hj
    have hrow := rowcol_div (tk - keptOldBegin c s t + c.maxTicksPerEpoch) j hj
    have hcol := rowcol_mod (tk - keptOldBegin c s t + c.maxTicksPerEpoch) j hj
    have hge : ¬ ((tk - keptOldBegin c s t + c.maxTicksPerEpoch) * c.txPerTick + j <
        c.maxTicksPerEpoch * c.txPerTick) := by
      have h1 : c.maxTicksPerEpoch * c.txPerTick ≤
          (tk - keptOldBegin c s t + c.maxTicksPerEpoch) * c.txPerTick :=
        Nat.mul_le_mul_right _ (by omega)
      omega
    rw [if_neg hge, hrow, hcol]
    have htk : tk - keptOldBegin c s t + c.maxTicksPerEpoch - c.maxTicksPerEpoch +
        keptOldBegin c s t = tk := by omega
    rw [if_pos ⟨Nat.le_add_left _ _, by omega⟩, htk]
    rfl

theorem storage_beginEpoch_spec_witness :
    ((ttsW.tickBegin ≠ 0 ∧ ttsW.tickBegin < 3 ∧ 3 < ttsW.tickEnd ∧
        cfgB.ticksToKeep ≤ 3 ∧ 3 < U32 ∧
        cfgB.firstOffset ≤ ttsW.nextTickTransactionOffset ∧
        ttsW.nextTickTransactionOffset ≤ cfgB.curArenaSize) ∧
      ((ttsW.beginEpoch cfgB 3).oldTickEnd = 3 ∧
        (ttsW.beginEpoch cfgB 3).oldTickBegin = keptOldBegin cfgB ttsW 3 ∧
        (ttsW.beginEpoch cfgB 3).nextTickTransactionOffset = cfgB.firstOffset ∧
        (∀ i, i < keepBytes cfgB ttsW →
          (ttsW.beginEpoch cfgB 3).arena (cfgB.curArenaSize + i) =
            ttsW.arena (firstToKeepOffset cfgB ttsW + i)) ∧
        (∀ i, i < cfgB.curArenaSize → (ttsW.beginEpoch cfgB 3).arena i = 0) ∧
        (∀ idx, idx < cfgB.maxTicksPerEpoch * cfgB.txPerTick →
          (ttsW.beginEpoch cfgB 3).offsets idx = 0) ∧
        (∀ tk j, keptOldBegin cfgB ttsW 3 ≤ tk → tk < 3 → j < cfgB.txPerTick →
          (ttsW.beginEpoch cfgB 3).offsets
              ((tk - keptOldBegin cfgB ttsW 3 + cfgB.maxTicksPerEpoch) * cfgB.txPerTick + j) =
            if ttsW.offsets ((tk - ttsW.tickBegin) * cfgB.txPerTick + j) = 0 ∨
                ttsW.offsets ((tk - ttsW.tickBegin) * cfgB.txPerTick + j) <
                  firstToKeepOffset cfgB ttsW then 0
            else ttsW.offsets ((tk - ttsW.tickBegin) * cfgB.txPerTick + j) +
              offsetDelta cfgB ttsW))) :=
  ⟨⟨by decide, by decide, by decide, by decide, by decide, by decide, by decide⟩,
    storage_beginEpoch_spec cfgB ttsW 3 (by decide) (by decide) (by decide) (by decide)
      (by decide) (by decide) (by decide)⟩

theorem firstNonZeroFrom_none_all (f : Nat → Nat) :
    ∀ fuel j, firstNonZeroFrom f j fuel = none → ∀ i, j ≤ i → i < j + fuel → f i = 0 := by
  intro fuel
  induction fuel with
  | zero => intro j _ i h1 h2; omega
  | succ fuel ih =>
    intro j h i h1 h2
    unfold firstNonZeroFrom at h
    by_cases hf : f j ≠ 0
    · rw [if_pos hf] at h
      cases h
    · rw [if_neg hf] at h
      by_cases hij : i = j
      · subst hij
        exact not_not.mp hf
      · exact ih (j + 1) h i (by omega) (by omega)

theorem firstNonZeroFrom_some_spec (f : Nat → Nat) :
    ∀ fuel j i, firstNonZeroFrom f j fuel = some i →
      j ≤ i ∧ i < j + fuel ∧ f i ≠ 0 ∧ ∀ m, j ≤ m → m < i → f m = 0 := by
  intro fuel
  induction fuel with
  | zero => intro j i h; simp [firstNonZeroFrom] at h
  | succ fuel ih =>
    intro j i h
    unfold firstNonZeroFrom at h
    by_cases hf : f j ≠ 0
    · rw [if_pos hf] at h
      cases h
      exact ⟨Nat.le_refl _, by omega, hf, fun m hm1 hm2 => by omega⟩
    · rw [if_neg hf] at h
      obtain ⟨a1, a2, a3, a4⟩ := ih (j + 1) i h
      refine ⟨by omega, by omega, a3, ?_⟩
      intro m hm1 hm2
      by_cases hmj : m = j
      · subst hmj
        exact not_not.mp hf
      · exact a4 m (by omega) hm2

theorem firstNonZero_none_all (f : Nat → Nat) (n : Nat) (h : firstNonZero f n = none) :
    ∀ i, i < n → f i = 0 := fun i hi =>
  firstNonZeroFrom_none_all f n 0 h i (Nat.zero_le _) (by omega)

theorem firstNonZero_some_spec (f : Nat → Nat) (n fz : Nat)
    (h : firstNonZero f n = some fz) :
    fz < n ∧ f fz ≠ 0 ∧ ∀ m, m < fz → f m = 0 := by
  obtain ⟨a1, a2, a3, a4⟩ := firstNonZeroFrom_some_spec f n 0 fz h
  exact ⟨by omega, a3, fun m hm => a4 m (Nat.zero_le _) hm⟩

theorem compactCell_congr (c : Config) (offsRow : Nat → Nat) (cnt : Nat)
    (g g' : Nat → Nat) (hcnt : cnt ≤ c.txPerTick)
    (hg : ∀ m, m < c.txPerTick → g m = g' m) (j : Nat) (hj : j < c.txPerTick) :
    Pool.compactCell c offsRow cnt g j = Pool.compactCell c offsRow cnt g' j := by
  unfold Pool.compactCell
  by_cases h0 : cnt = 0
  · rw [if_pos h0, if_pos h0, hg j hj]
  · rw [if_neg h0, if_neg h0]
    cases hfz : firstNonZero offsRow c.txPerTick with
    | none => exact hg j hj
    | some fz =>
      by_cases hj1 : j < cnt - fz
      · simp only [if_pos hj1]
        exact hg (j + fz) (by omega)
      · simp only [if_neg hj1]
        by_cases hj2 : j < cnt
        · simp only [if_pos hj2]
        · simp only [if_neg hj2]
          exact hg j hj

theorem compactCell_eq_of_some (c : Config) (offsRow g : Nat → Nat) (cnt j fz : Nat)
    (h0 : cnt ≠ 0) (hsome : firstNonZero offsRow c.txPerTick = some fz) :
    Pool.compactCell c offsRow cnt g j =
      if j < cnt - fz then g (j + fz) else if j < cnt then 0 else g j := by
  unfold Pool.compactCell
  rw [if_neg h0, hsome]

theorem compactCount_eq_of_some (c : Config) (offsRow : Nat → Nat) (cnt fz : Nat)
    (h0 : cnt ≠ 0) (hsome : firstNonZero offsRow c.txPerTick = some fz) :
    Pool.compactCount c offsRow cnt = cnt - fz := by
  unfold Pool.compactCount
  rw [if_neg h0, hsome]

theorem numSavedCleared_kept (c : Config) (p : Pool) (tickIndex tickCount r : Nat)
    (h1 : c.maxTicksPerEpoch ≤ r) (h2 : r < c.maxTicksPerEpoch + tickCount) :
    Pool.numSavedCleared c p tickIndex tickCount r =
      p.numSavedTxsPerTick (tickIndex + (r - c.maxTicksPerEpoch)) := by
  unfold Pool.numSavedCleared Pool.numSavedCopied
  rw [if_neg (by omega), if_pos ⟨h1, h2⟩]

theorem digestsCleared_kept (c : Config) (p : Pool) (tickIndex tickCount r m : Nat)
    (h1 : c.maxTicksPerEpoch ≤ r) (h2 : r < c.maxTicksPerEpoch + tickCount)
    (hm : m < c.txPerTick) :
    Pool.digestsCleared c p tickIndex tickCount (r * c.txPerTick + m) =
      p.digests (tickIndex * c.txPerTick + ((r - c.maxTicksPerEpoch) * c.txPerTick + m)) := by
  unfold Pool.digestsCleared Pool.digestsCopied
  have hsplit : r * c.txPerTick =
      c.maxTicksPerEpoch * c.txPerTick + (r - c.maxTicksPerEpoch) * c.txPerTick := by
    rw [← Nat.add_mul]
    congr 1
    omega
  have hlt : r * c.txPerTick + m <
      c.maxTicksPerEpoch * c.txPerTick + tickCount * c.txPerTick := by
    have hstep : (r + 1) * c.txPerTick ≤ (c.maxTicksPerEpoch + tickCount) * c.txPerTick :=
      Nat.mul_le_mul_right _ (by omega)
    have hsucc : (r + 1) * c.txPerTick = r * c.txPerTick + c.txPerTick := by
      rw [Nat.add_mul, Nat.one_mul]
    have hfull : (c.maxTicksPerEpoch + tickCount) * c.txPerTick =
        c.maxTicksPerEpoch * c.txPerTick + tickCount * c.txPerTick := Nat.add_mul _ _ _
    omega
  have harg : r * c.txPerTick + m - c.maxTicksPerEpoch * c.txPerTick =
      (r - c.maxTicksPerEpoch) * c.txPerTick + m := by
    omega
  rw [if_neg (by omega), if_pos ⟨by omega, hlt⟩, harg]

theorem pool_beginEpoch_kept_row (c : Config) (p : Pool) (t : Nat)
    (hb : p.tickBegin ≠ 0) (hlt : p.tickBegin < t) (hend : t < p.tickEnd)
    (hk : c.ticksToKeep ≤ t) (hu : t < U32)
    (tk : Nat) (htk1 : max (t - c.ticksToKeep) p.tickBegin ≤ tk) (htk2 : tk < t) :
    (p.beginEpoch c t).numSavedTxsPerTick
        (tk - max (t - c.ticksToKeep) p.tickBegin + c.maxTicksPerEpoch) =
      Pool.compactCount c
        (Pool.offsetsRow c (TTStorage.beginEpoch c p.storage t)
          (tk - max (t - c.ticksToKeep) p.tickBegin + c.maxTicksPerEpoch))
        (p.numSavedTxsPerTick (tk - p.tickBegin)) ∧
    (∀ j, j < c.txPerTick →
      (p.beginEpoch c t).storage.offsets
          ((tk - max (t - c.ticksToKeep) p.tickBegin + c.maxTicksPerEpoch) *
            c.txPerTick + j) =
        Pool.compactCell c
          (Pool.offsetsRow c (TTStorage.beginEpoch c p.storage t)
            (tk - max (t - c.ticksToKeep) p.tickBegin + c.maxTicksPerEpoch))
          (p.numSavedTxsPerTick (tk - p.tickBegin))
          (Pool.offsetsRow c (TTStorage.beginEpoch c p.storage t)
            (tk - max (t - c.ticksToKeep) p.tickBegin + c.maxTicksPerEpoch)) j) ∧
    (p.numSavedTxsPerTick (tk - p.tickBegin) ≤ c.txPerTick →
      ∀ j, j < c.txPerTick →
      (p.beginEpoch c t).digests
          ((tk - max (t - c.ticksToKeep) p.tickBegin + c.maxTicksPerEpoch) *
            c.txPerTick + j) =
        Pool.compactCell c
          (Pool.offsetsRow c (TTStorage.beginEpoch c p.storage t)
            (tk - max (t - c.ticksToKeep) p.tickBegin + c.maxTicksPerEpoch))
          (p.numSavedTxsPerTick (tk - p.tickBegin))
          (fun m => p.digests ((tk - p.tickBegin) * c.txPerTick + m)) j) := by
  have hseamP : p.tickBegin ≠ 0 ∧ p.tickInCurrentEpochStorage t = true ∧ p.tickBegin < t := by
    refine ⟨hb, ?_, hlt⟩
    simp only [Pool.tickInCurrentEpochStorage, Bool.and_eq_true, decide_eq_true_eq]
    exact ⟨Nat.le_of_lt hlt, hend⟩
  have hsub : sub32 t c.ticksToKeep = t - c.ticksToKeep := sub32_eq_sub hk hu
  have holdB : (if sub32 t c.ticksToKeep < p.tickBegin then p.tickBegin
      else sub32 t c.ticksToKeep) = max (t - c.ticksToKeep) p.tickBegin := by
    rw [hsub]
    split <;> omega
  have hidx : max (t - c.ticksToKeep) p.tickBegin - p.tickBegin +
      (tk - max (t - c.ticksToKeep) p.tickBegin + c.maxTicksPerEpoch -
        c.maxTicksPerEpoch) = tk - p.tickBegin := by
    omega
  simp only [Pool.beginEpoch]
  rw [if_pos hseamP]
  simp only [holdB]
  refine ⟨?_, ?_, ?_⟩
  · rw [if_pos ⟨by omega, by omega⟩,
      numSavedCleared_kept c p _ _ _ (by omega) (by omega), hidx]
  · intro j hj
    rw [rowcol_div (tk - max (t - c.ticksToKeep) p.tickBegin + c.maxTicksPerEpoch) j hj,
      rowcol_mod (tk - max (t - c.ticksToKeep) p.tickBegin + c.maxTicksPerEpoch) j hj,
      if_pos ⟨by omega, by omega⟩,
      numSavedCleared_kept c p _ _ _ (by omega) (by omega), hidx]
  · intro hcnt j hj
    rw [rowcol_div (tk - max (t - c.ticksToKeep) p.tickBegin + c.maxTicksPerEpoch) j hj,
      rowcol_mod (tk - max (t - c.ticksToKeep) p.tickBegin + c.maxTicksPerEpoch) j hj,
      if_pos ⟨by omega, by omega⟩,
      numSavedCleared_kept c p _ _ _ (by omega) (by omega), hidx]
    refine compactCell_congr c _ _ _ _ hcnt ?_ j hj
    intro m hm
    rw [digestsCleared_kept c p _ _ _ m (by omega) (by omega) hm]
    congr 1
    rw [← Nat.add_assoc, ← Nat.add_mul, hidx]

/-- Claim C4: after a seamless `TxsPool::beginEpoch(newInitialTick)`, for
every kept previous-epoch tick the digest and slot-offset rows are
compacted: with `f` the index of the first non-zero offset of the tick's
row after arena rebasing, offsets and digests are shifted down by `f` so
the surviving entries occupy indices `0 .. count-f-1` contiguously,
`numSavedTxsPerTick` for the tick is decreased by `f` (or set to 0 when
all offsets were dropped), and the vacated tail entries are zeroed. -/
theorem pool_beginEpoch_compacts_kept_rows (c : Config) (p : Pool) (t : Nat)
    (hb : p.tickBegin ≠ 0) (hlt : p.tickBegin < t) (hend : t < p.tickEnd)
    (hk : c.ticksToKeep ≤ t) (hu : t < U32)
    (tk : Nat) (htk1 : max (t - c.ticksToKeep) p.tickBegin ≤ tk) (htk2 : tk < t)
    (hcnt : p.numSavedTxsPerTick (tk - p.tickBegin) ≤ c.txPerTick)
    (hwf : ∀ j, j < c.txPerTick →
      Pool.offsetsRow c (TTStorage.beginEpoch c p.storage t)
          (tk - max (t - c.ticksToKeep) p.tickBegin + c.maxTicksPerEpoch) j ≠ 0 →
      j < p.numSavedTxsPerTick (tk - p.tickBegin)) :
    (firstNonZero (Pool.offsetsRow c (TTStorage.beginEpoch c p.storage t)
          (tk - max (t - c.ticksToKeep) p.tickBegin + c.maxTicksPerEpoch))
        c.txPerTick = none →
      (p.beginEpoch c t).numSavedTxsPerTick
          (tk - max (t - c.ticksToKeep) p.tickBegin + c.maxTicksPerEpoch) = 0) ∧
    (∀ fz, firstNonZero (Pool.offsetsRow c (TTStorage.beginEpoch c p.storage t)
          (tk - max (t - c.ticksToKeep) p.tickBegin + c.maxTicksPerEpoch))
        c.txPerTick = some fz →
      fz < p.numSavedTxsPerTick (tk - p.tickBegin) ∧
      (p.beginEpoch c t).numSavedTxsPerTick
          (tk - max (t - c.ticksToKeep) p.tickBegin + c.maxTicksPerEpoch) =
        p.numSavedTxsPerTick (tk - p.tickBegin) - fz ∧
      (∀ j, j < p.numSavedTxsPerTick (tk - p.tickBegin) - fz →
        (p.beginEpoch c t).storage.offsets
            ((tk - max (t - c.ticksToKeep) p.tickBegin + c.maxTicksPerEpoch) *
              c.txPerTick + j) =
          Pool.offsetsRow c (TTStorage.beginEpoch c p.storage t)
            (tk - max (t - c.ticksToKeep) p.tickBegin + c.maxTicksPerEpoch) (j + fz) ∧
        (p.beginEpoch c t).digests
            ((tk - max (t - c.ticksToKeep) p.tickBegin + c.maxTicksPerEpoch) *
              c.txPerTick + j) =
          p.digests ((tk - p.tickBegin) * c.txPerTick + (j + fz))) ∧
      (∀ j, p.numSavedTxsPerTick (tk - p.tickBegin) - fz ≤ j →
          j < p.numSavedTxsPerTick (tk - p.tickBegin) →
        (p.beginEpoch c t).storage.offsets
            ((tk - max (t - c.ticksToKeep) p.tickBegin + c.maxTicksPerEpoch) *
              c.txPerTick + j) = 0 ∧
        (p.beginEpoch c t).digests
            ((tk - max (t - c.ticksToKeep) p.tickBegin + c.maxTicksPerEpoch) *
              c.txPerTick + j) = 0)) := by
  obtain ⟨H1, H2, H3⟩ := pool_beginEpoch_kept_row c p t hb hlt hend hk hu tk htk1 htk2
  constructor
  · intro hnone
    rw [H1]
    unfold Pool.compactCount
    by_cases h0 : p.numSavedTxsPerTick (tk - p.tickBegin) = 0
    · rw [if_pos h0]
      exact h0
    · rw [if_neg h0, hnone]
  · intro fz hsome
    obtain ⟨hfzT, hfznz, hfzmin⟩ := firstNonZero_some_spec _ _ _ hsome
    have hfzcnt : fz < p.numSavedTxsPerTick (tk - p.tickBegin) := hwf fz hfzT hfznz
    have h0 : p.numSavedTxsPerTick (tk - p.tickBegin) ≠ 0 := by omega
    refine ⟨hfzcnt, ?_, ?_, ?_⟩
    · rw [H1, compactCount_eq_of_some c _ _ fz h0 hsome]
    · intro j hj
      have hjT : j < c.txPerTick := by omega
      constructor
      · rw [H2 j hjT, compactCell_eq_of_some c _ _ _ j fz h0 hsome, if_pos hj]
      · rw [H3 hcnt j hjT, compactCell_eq_of_some c _ _ _ j fz h0 hsome, if_pos hj]
    · intro j hj1 hj2
      have hjT : j < c.txPerTick := by omega
      constructor
      · rw [H2 j hjT, compactCell_eq_of_some c _ _ _ j fz h0 hsome,
          if_neg (by omega), if_pos hj2]
      · rw [H3 hcnt j hjT, compactCell_eq_of_some c _ _ _ j fz h0 hsome,
          if_neg (by omega), if_pos hj2]

theorem pool_beginEpoch_compacts_kept_rows_witness :
    (poolC4.tickBegin ≠ 0 ∧ poolC4.tickBegin < 3 ∧ 3 < poolC4.tickEnd ∧
      cfgB.ticksToKeep ≤ 3 ∧ 3 < U32 ∧
      max (3 - cfgB.ticksToKeep) poolC4.tickBegin ≤ 1 ∧ 1 < 3 ∧
      poolC4.numSavedTxsPerTick (1 - poolC4.tickBegin) ≤ cfgB.txPerTick) ∧
    ((firstNonZero (Pool.offsetsRow cfgB (TTStorage.beginEpoch cfgB poolC4.storage 3)
          (1 - max (3 - cfgB.ticksToKeep) poolC4.tickBegin + cfgB.maxTicksPerEpoch))
        cfgB.txPerTick = none →
      (poolC4.beginEpoch cfgB 3).numSavedTxsPerTick
          (1 - max (3 - cfgB.ticksToKeep) poolC4.tickBegin + cfgB.maxTicksPerEpoch) = 0) ∧
    (∀ fz, firstNonZero (Pool.offsetsRow cfgB (TTStorage.beginEpoch cfgB poolC4.storage 3)
          (1 - max (3 - cfgB.ticksToKeep) poolC4.tickBegin + cfgB.maxTicksPerEpoch))
        cfgB.txPerTick = some fz →
      fz < poolC4.numSavedTxsPerTick (1 - poolC4.tickBegin) ∧
      (poolC4.beginEpoch cfgB 3).numSavedTxsPerTick
          (1 - max (3 - cfgB.ticksToKeep) poolC4.tickBegin + cfgB.maxTicksPerEpoch) =
        poolC4.numSavedTxsPerTick (1 - poolC4.tickBegin) - fz ∧
      (∀ j, j < poolC4.numSavedTxsPerTick (1 - poolC4.tickBegin) - fz →
        (poolC4.beginEpoch cfgB 3).storage.offsets
            ((1 - max (3 - cfgB.ticksToKeep) poolC4.tickBegin + cfgB.maxTicksPerEpoch) *
              cfgB.txPerTick + j) =
          Pool.offsetsRow cfgB (TTStorage.beginEpoch cfgB poolC4.storage 3)
            (1 - max (3 - cfgB.ticksToKeep) poolC4.tickBegin + cfgB.maxTicksPerEpoch)
            (j + fz) ∧
        (poolC4.beginEpoch cfgB 3).digests
            ((1 - max (3 - cfgB.ticksToKeep) poolC4.tickBegin + cfgB.maxTicksPerEpoch) *
              cfgB.txPerTick + j) =
          poolC4.digests ((1 - poolC4.tickBegin) * cfgB.txPerTick + (j + fz))) ∧
      (∀ j, poolC4.numSavedTxsPerTick (1 - poolC4.tickBegin) - fz ≤ j →
          j < poolC4.numSavedTxsPerTick (1 - poolC4.tickBegin) →
        (poolC4.beginEpoch cfgB 3).storage.offsets
            ((1 - max (3 - cfgB.ticksToKeep) poolC4.tickBegin + cfgB.maxTicksPerEpoch) *
              cfgB.txPerTick + j) = 0 ∧
        (poolC4.beginEpoch cfgB 3).digests
            ((1 - max (3 - cfgB.ticksToKeep) poolC4.tickBegin + cfgB.maxTicksPerEpoch) *
              cfgB.txPerTick + j) = 0))) :=
  ⟨⟨by decide, by decide, by decide, by decide, by decide, by decide, by decide, by decide⟩,
    pool_beginEpoch_compacts_kept_rows cfgB poolC4 3 (by decide) (by decide) (by decide)
      (by decide) (by decide) 1 (by decide) (by decide) (by decide)
      (fun j hj _ => hj)⟩

theorem probe_wrap {cap orig j : Nat} (ho : orig < cap) (hj : j + 1 ≤ cap)
    (h : (orig + (j + 1)) % cap = orig) : j + 1 = cap := by
  by_cases hlt : j + 1 < cap
  · exfalso
    by_cases h2 : orig + (j + 1) < cap
    · rw [Nat.mod_eq_of_lt h2] at h
      omega
    · have h3 : orig + (j + 1) - cap < cap := by omega
      rw [Nat.mod_eq_sub_mod (by omega), Nat.mod_eq_of_lt h3] at h
      omega
  · omega

theorem probe_no_wrap {cap orig j : Nat} (ho : orig < cap) (hj : j + 1 = cap) :
    (orig + (j + 1)) % cap = orig := by
  rw [hj, Nat.add_mod_right, Nat.mod_eq_of_lt ho]

theorem mod_dist {cap orig m : Nat} (ho : orig < cap) (hm : m < cap) :
    ((orig + m) % cap + cap - orig) % cap = m := by
  by_cases h : orig + m < cap
  · rw [Nat.mod_eq_of_lt h]
    have he : orig + m + cap - orig = m + cap := by omega
    rw [he, Nat.add_mod_right, Nat.mod_eq_of_lt hm]
  · have h3 : orig + m - cap < cap := by omega
    have hin : (orig + m) % cap = orig + m - cap := by
      rw [Nat.mod_eq_sub_mod (by omega), Nat.mod_eq_of_lt h3]
    rw [hin]
    have he : orig + m - cap + cap - orig = m := by omega
    rw [he, Nat.mod_eq_of_lt hm]

theorem mod_probe_inj {cap orig i m : Nat} (ho : orig < cap) (hi : i < cap) (hm : m < cap)
    (h : (orig + i) % cap = (orig + m) % cap) : i = m := by
  have h1 := mod_dist ho hi
  have h2 := mod_dist ho hm
  rw [h] at h1
  exact h1.symm.trans h2

theorem mod_add_dist {cap orig s : Nat} (ho : orig < cap) (hs : s < cap) :
    (orig + (s + cap - orig) % cap) % cap = s := by
  by_cases h : s + cap - orig < cap
  · rw [Nat.mod_eq_of_lt h]
    have he : orig + (s + cap - orig) = s + cap := by omega
    rw [he, Nat.add_mod_right, Nat.mod_eq_of_lt hs]
  · have hin : (s + cap - orig) % cap = s + cap - orig - cap := by
      rw [Nat.mod_eq_sub_mod (by omega), Nat.mod_eq_of_lt (by omega)]
    rw [hin]
    have he : orig + (s + cap - orig - cap) = s := by omega
    rw [he, Nat.mod_eq_of_lt hs]

theorem insertLoop_sound (cap : Nat) (tbl : Nat → HashMapEntry) (orig : Nat)
    (ho : orig < cap) :
    ∀ fuel j, fuel = cap - j → j < cap →
      (∀ s, insertLoop cap tbl orig ((orig + j) % cap) fuel = some s →
        ∃ m, j ≤ m ∧ m < cap ∧ s = (orig + m) % cap ∧ (tbl s).digest = 0 ∧
          ∀ i, j ≤ i → i < m → (tbl ((orig + i) % cap)).digest ≠ 0) ∧
      (insertLoop cap tbl orig ((orig + j) % cap) fuel = none →
        ∀ i, j ≤ i → i < cap → (tbl ((orig + i) % cap)).digest ≠ 0) := by
  intro fuel
  induction fuel with
  | zero =>
    intro j hfj hj
    exfalso
    omega
  | succ fuel ih =>
    intro j hfj hj
    constructor
    · intro s hs
      unfold insertLoop at hs
      by_cases hocc : (tbl ((orig + j) % cap)).digest = 0
      · rw [if_pos hocc] at hs
        cases hs
        exact ⟨j, Nat.le_refl _, hj, rfl, hocc, fun i h1 h2 => by omega⟩
      · rw [if_neg hocc] at hs
        simp only [Nat.mod_add_mod, Nat.add_assoc] at hs
        by_cases hwrap : (orig + (j + 1)) % cap = orig
        · rw [if_pos hwrap] at hs
          cases hs
        · rw [if_neg hwrap] at hs
          have hj1 : j + 1 < cap := by
            rcases Nat.lt_or_ge (j + 1) cap with h | h
            · exact h
            · exact absurd (probe_no_wrap ho (by omega)) hwrap
          obtain ⟨IH1, _⟩ := ih (j + 1) (by omega) hj1
          obtain ⟨m, hm1, hm2, hm3, hm4, hm5⟩ := IH1 s hs
          refine ⟨m, by omega, hm2, hm3, hm4, ?_⟩
          intro i h1 h2
          by_cases hij : i = j
          · subst hij
            exact hocc
          · exact hm5 i (by omega) h2
    · intro hn i h1 h2
      unfold insertLoop at hn
      by_cases hocc : (tbl ((orig + j) % cap)).digest = 0
      · rw [if_pos hocc] at hn
        cases hn
      · rw [if_neg hocc] at hn
        simp only [Nat.mod_add_mod, Nat.add_assoc] at hn
        by_cases hwrap : (orig + (j + 1)) % cap = orig
        · have hcap : j + 1 = cap := probe_wrap ho (by omega) hwrap
          have hij : i = j := by omega
          subst hij
          exact hocc
        · rw [if_neg hwrap] at hn
          have hj1 : j + 1 < cap := by
            rcases Nat.lt_or_ge (j + 1) cap with h | h
            · exact h
            · exact absurd (probe_no_wrap ho (by omega)) hwrap
          obtain ⟨_, IH2⟩ := ih (j + 1) (by omega) hj1
          by_cases hij : i = j
          · subst hij
            exact hocc
          · exact IH2 hn i (by omega) h2

theorem insertLoop_start_some (cap : Nat) (tbl : Nat → HashMapEntry) (orig s : Nat)
    (ho : orig < cap) (h : insertLoop cap tbl orig orig cap = some s) :
    ∃ m, m < cap ∧ s = (orig + m) % cap ∧ (tbl s).digest = 0 ∧
      ∀ i, i < m → (tbl ((orig + i) % cap)).digest ≠ 0 := by
  have h0 : (orig + 0) % cap = orig := by rw [Nat.add_zero, Nat.mod_eq_of_lt ho]
  obtain ⟨IH1, _⟩ := insertLoop_sound cap tbl orig ho cap 0 (by omega) (by omega)
  obtain ⟨m, _, hm2, hm3, hm4, hm5⟩ := IH1 s (by rw [h0]; exact h)
  exact ⟨m, hm2, hm3, hm4, fun i hi => hm5 i (Nat.zero_le _) hi⟩

theorem insertLoop_start_none (cap : Nat) (tbl : Nat → HashMapEntry) (orig : Nat)
    (ho : orig < cap) (h : insertLoop cap tbl orig orig cap = none) :
    ∀ i, i < cap → (tbl ((orig + i) % cap)).digest ≠ 0 := by
  have h0 : (orig + 0) % cap = orig := by rw [Nat.add_zero, Nat.mod_eq_of_lt ho]
  obtain ⟨_, IH2⟩ := insertLoop_sound cap tbl orig ho cap 0 (by omega) (by omega)
  exact fun i hi => IH2 (by rw [h0]; exact h) i (Nat.zero_le _) hi

theorem findLoop_found (cap : Nat) (tbl : Nat → HashMapEntry) (d orig : Nat)
    (ho : orig < cap) (m : Nat) (hm : m < cap)
    (hocc : ∀ i, i < m → (tbl ((orig + i) % cap)).digest ≠ 0 ∧
      (tbl ((orig + i) % cap)).digest ≠ d)
    (hd : (tbl ((orig + m) % cap)).digest = d) (hdnz : d ≠ 0) :
    findLoop cap tbl d orig orig cap = (tbl ((orig + m) % cap)).transaction := by
  have haux : ∀ fuel j, fuel = cap - j → j ≤ m →
      findLoop cap tbl d orig ((orig + j) % cap) fuel =
        (tbl ((orig + m) % cap)).transaction := by
    intro fuel
    induction fuel with
    | zero =>
      intro j hfj hjm
      exfalso
      omega
    | succ fuel ih =>
      intro j hfj hjm
      by_cases hjeq : j = m
      · subst hjeq
        unfold findLoop
        rw [if_neg (by rw [hd]; exact hdnz), if_pos hd]
      · have hjm2 : j < m := by omega
        obtain ⟨ho1, ho2⟩ := hocc j hjm2
        unfold findLoop
        rw [if_neg ho1, if_neg ho2]
        simp only [Nat.mod_add_mod, Nat.add_assoc]
        have hwrap : ¬ ((orig + (j + 1)) % cap = orig) := by
          intro hw
          have := probe_wrap ho (by omega) hw
          omega
        rw [if_neg hwrap]
        exact ih (j + 1) (by omega) (by omega)
  have h0 : (orig + 0) % cap = orig := by rw [Nat.add_zero, Nat.mod_eq_of_lt ho]
  have := haux cap 0 (by omega) (Nat.zero_le _)
  rw [h0] at this
  exact this

theorem findLoop_absent (cap : Nat) (tbl : Nat → HashMapEntry) (d orig : Nat)
    (hd : ∀ s, s < cap → (tbl s).digest ≠ d) :
    ∀ fuel idx, idx < cap → findLoop cap tbl d orig idx fuel = 0 := by
  intro fuel
  induction fuel with
  | zero =>
    intro idx hidx
    unfold findLoop
    by_cases h0 : (tbl idx).digest = 0
    · rw [if_pos h0]
    · rw [if_neg h0, if_neg (hd idx hidx)]
  | succ fuel ih =>
    intro idx hidx
    unfold findLoop
    by_cases h0 : (tbl idx).digest = 0
    · rw [if_pos h0]
    · rw [if_neg h0, if_neg (hd idx hidx)]
      by_cases hwrap : (idx + 1) % cap = orig
      · rw [if_pos hwrap]
      · rw [if_neg hwrap]
        exact ih ((idx + 1) % cap) (Nat.mod_lt _ (by omega))

theorem tableInv_empty (cap : Nat) : TableInv cap emptyTable := by
  constructor
  · intro s t _ _ hne _
    exact absurd rfl hne
  · intro s _ hne
    exact absurd rfl hne

theorem insert_digest_cases (cap : Nat) (tbl : Nat → HashMapEntry) (d p s : Nat) :
    ((insertTransaction cap tbl d p) s).digest = (tbl s).digest ∨
    ((insertTransaction cap tbl d p) s).digest = d := by
  unfold insertTransaction
  by_cases hd : d = 0
  · rw [if_pos hd]
    exact Or.inl rfl
  · rw [if_neg hd]
    cases insertLoop cap tbl (hashFunc cap d) (hashFunc cap d) cap with
    | none => exact Or.inl rfl
    | some s' =>
      by_cases hss : s = s'
      · right
        simp [hss]
      · left
        simp [hss]

theorem tableInv_insert (cap : Nat) (tbl : Nat → HashMapEntry) (d p : Nat)
    (hcap : 0 < cap) (hinv : TableInv cap tbl) (hd : d ≠ 0)
    (hfresh : ∀ s, s < cap → (tbl s).digest ≠ d) :
    TableInv cap (insertTransaction cap tbl d p) := by
  unfold insertTransaction
  rw [if_neg hd]
  have ho : hashFunc cap d < cap := Nat.mod_lt _ hcap
  cases hloop : insertLoop cap tbl (hashFunc cap d) (hashFunc cap d) cap with
  | none => exact hinv
  | some s =>
    obtain ⟨m, hm, hseq, hfree, hpath⟩ := insertLoop_start_some cap tbl _ s ho hloop
    show TableInv cap (fun i => if i = s then ⟨d, p⟩ else tbl i)
    have hupd : ∀ x, ((fun i => if i = s then (⟨d, p⟩ : HashMapEntry) else tbl i) x).digest =
        if x = s then d else (tbl x).digest := by
      intro x
      by_cases h : x = s <;> simp [h]
    constructor
    · intro a b ha hb hna heq
      rw [hupd a] at hna
      rw [hupd a, hupd b] at heq
      by_cases has : a = s <;> by_cases hbs : b = s
      · rw [has, hbs]
      · rw [if_pos has, if_neg hbs] at heq
        exact absurd heq.symm (hfresh b hb)
      · rw [if_neg has, if_pos hbs] at heq
        exact absurd heq (hfresh a ha)
      · rw [if_neg has, if_neg hbs] at heq
        rw [if_neg has] at hna
        exact hinv.distinct a b ha hb hna heq
    · intro a ha hna i hi
      rw [hupd a] at hna hi
      by_cases has : a = s
      · rw [if_pos has] at hi
        have hdist : (a + cap - hashFunc cap d) % cap = m := by
          rw [has, hseq]
          exact mod_dist ho hm
        rw [hdist] at hi
        rw [hupd a, if_pos has]
        rw [hupd ((hashFunc cap d + i) % cap)]
        by_cases hcol : (hashFunc cap d + i) % cap = s
        · rw [if_pos hcol]
          exact hd
        · rw [if_neg hcol]
          exact hpath i hi
      · rw [if_neg has] at hi hna
        rw [hupd a, if_neg has]
        rw [hupd ((hashFunc cap (tbl a).digest + i) % cap)]
        have hold := hinv.path a ha hna i hi
        by_cases hcol : (hashFunc cap (tbl a).digest + i) % cap = s
        · rw [if_pos hcol]
          exact hd
        · rw [if_neg hcol]
          exact hold

theorem insertList_inv (cap : Nat) (hcap : 0 < cap) :
    ∀ (L : List (Nat × Nat)) (tbl : Nat → HashMapEntry),
      TableInv cap tbl →
      (∀ dp, dp ∈ L → dp.1 ≠ 0) →
      (L.map Prod.fst).Nodup →
      (∀ dp, dp ∈ L → ∀ s, s < cap → (tbl s).digest ≠ dp.1) →
      TableInv cap (insertList cap tbl L) ∧
      (∀ d, (∀ s, s < cap → (tbl s).digest ≠ d) → d ∉ L.map Prod.fst →
        ∀ s, s < cap → ((insertList cap tbl L) s).digest ≠ d) := by
  intro L
  induction L with
  | nil =>
    intro tbl hinv _ _ _
    exact ⟨hinv, fun d hfr _ s hs => hfr s hs⟩
  | cons hd0 rest ih =>
    obtain ⟨d0, p0⟩ := hd0
    intro tbl hinv hnz hnodup hfresh
    have hd0nz : d0 ≠ 0 := hnz (d0, p0) (List.mem_cons_self _ _)
    have hfresh0 : ∀ s, s < cap → (tbl s).digest ≠ d0 :=
      fun s hs => hfresh (d0, p0) (List.mem_cons_self _ _) s hs
    have hinv1 : TableInv cap (insertTransaction cap tbl d0 p0) :=
      tableInv_insert cap tbl d0 p0 hcap hinv hd0nz hfresh0
    have hnodup1 : (rest.map Prod.fst).Nodup := by
      simp only [List.map_cons, List.nodup_cons] at hnodup
      exact hnodup.2
    have hd0notin : d0 ∉ rest.map Prod.fst := by
      simp only [List.map_cons, List.nodup_cons] at hnodup
      exact hnodup.1
    have hfresh1 : ∀ dp, dp ∈ rest → ∀ s, s < cap →
        ((insertTransaction cap tbl d0 p0) s).digest ≠ dp.1 := by
      intro dp hdp s hs heq
      rcases insert_digest_cases cap tbl d0 p0 s with hc | hc
      · rw [hc] at heq
        exact hfresh dp (List.mem_cons_of_mem _ hdp) s hs heq
      · rw [hc] at heq
        exact hd0notin (heq ▸ List.mem_map_of_mem Prod.fst hdp)
    obtain ⟨ihinv, ihfresh⟩ :=
      ih (insertTransaction cap tbl d0 p0) hinv1 (fun dp hdp => hnz dp (List.mem_cons_of_mem _ hdp))
        hnodup1 hfresh1
    refine ⟨ihinv, ?_⟩
    intro d hfr hnotin s hs
    have hnotin1 : d ∉ rest.map Prod.fst := by
      simp only [List.map_cons, List.mem_cons] at hnotin
      intro hc
      exact hnotin (Or.inr hc)
    have hne0 : d ≠ d0 := by
      simp only [List.map_cons, List.mem_cons] at hnotin
      intro hc
      exact hnotin (Or.inl hc)
    refine ihfresh d ?_ hnotin1 s hs
    intro s' hs' heq
    rcases insert_digest_cases cap tbl d0 p0 s' with hc | hc
    · rw [hc] at heq
      exact hfr s' hs' heq
    · rw [hc] at heq
      exact hne0 heq.symm

/-- Claim C6: for the open-addressed digest index with linear probing:
inserting an all-zero digest leaves the table unchanged; an insertion
whose probe sequence wraps back to its starting slot (all slots occupied)
is silently dropped; and for every sequence of insertions of distinct
non-zero digests, `findTransaction` on an inserted digest that resides in
the table returns exactly the pointer stored with it (including when the
table is filled to exactly its capacity), while `findTransaction` on an
absent or zero digest returns `NULL`. -/
theorem digest_index_spec (cap : Nat) (hcap : 0 < cap) (L : List (Nat × Nat))
    (hnz : ∀ dp, dp ∈ L → dp.1 ≠ 0) (hnodup : (L.map Prod.fst).Nodup) :
    (∀ (tbl : Nat → HashMapEntry) (p : Nat), insertTransaction cap tbl 0 p = tbl) ∧
    (∀ (tbl : Nat → HashMapEntry) (d p : Nat), d ≠ 0 →
      (∀ i, i < cap → (tbl ((hashFunc cap d + i) % cap)).digest ≠ 0) →
      insertTransaction cap tbl d p = tbl) ∧
    findTransaction cap (insertList cap emptyTable L) 0 = 0 ∧
    (∀ d, d ≠ 0 → (∀ s, s < cap → ((insertList cap emptyTable L) s).digest ≠ d) →
      findTransaction cap (insertList cap emptyTable L) d = 0) ∧
    (∀ d p, (d, p) ∈ L → ∀ s, s < cap → insertList cap emptyTable L s = ⟨d, p⟩ →
      findTransaction cap (insertList cap emptyTable L) d = p) := by
  have hinit : ∀ dp, dp ∈ L → ∀ s, s < cap → (emptyTable s).digest ≠ dp.1 := by
    intro dp hdp s _ heq
    exact hnz dp hdp heq.symm
  obtain ⟨hinvL, _⟩ :=
    insertList_inv cap hcap L emptyTable (tableInv_empty cap) hnz hnodup hinit
  refine ⟨?_, ?_, ?_, ?_, ?_⟩
  · intro tbl p
    unfold insertTransaction
    rw [if_pos rfl]
  · intro tbl d p hd hfull
    unfold insertTransaction
    rw [if_neg hd]
    cases hloop : insertLoop cap tbl (hashFunc cap d) (hashFunc cap d) cap with
    | none => rfl
    | some s =>
      exfalso
      have ho : hashFunc cap d < cap := Nat.mod_lt _ hcap
      obtain ⟨m, hm, hseq, hfree, _⟩ := insertLoop_start_some cap tbl _ s ho hloop
      exact hfull m hm (by rw [← hseq]; exact hfree)
  · unfold findTransaction
    rw [if_pos rfl]
  · intro d hd habs
    unfold findTransaction
    rw [if_neg hd]
    exact findLoop_absent cap _ d _ habs cap _ (Nat.mod_lt _ hcap)
  · intro d p hmem s hs hslot
    have hdnz : d ≠ 0 := hnz (d, p) hmem
    have ho : hashFunc cap d < cap := Nat.mod_lt _ hcap
    have hsd : (insertList cap emptyTable L s).digest = d := by rw [hslot]
    have hm : (s + cap - hashFunc cap d) % cap < cap := Nat.mod_lt _ hcap
    have hsm : (hashFunc cap d + (s + cap - hashFunc cap d) % cap) % cap = s :=
      mod_add_dist ho hs
    have hpath := hinvL.path s hs (by rw [hsd]; exact hdnz)
    rw [hsd] at hpath
    unfold findTransaction
    rw [if_neg hdnz]
    have hfind := findLoop_found cap (insertList cap emptyTable L) d (hashFunc cap d) ho
      ((s + cap - hashFunc cap d) % cap) hm ?_ ?_ hdnz
    · rw [hfind, hsm, hslot]
    · intro i hi
      refine ⟨hpath i hi, ?_⟩
      intro heq
      have hi2 : (hashFunc cap d + i) % cap < cap := Nat.mod_lt _ hcap
      have hcol : (hashFunc cap d + i) % cap = s :=
        hinvL.distinct _ s hi2 hs (by rw [heq]; exact hdnz) (by rw [heq, hsd])
      rw [← hsm] at hcol
      have := mod_probe_inj ho (by omega) hm hcol
      omega
    · rw [hsm]
      exact hsd

theorem digest_index_spec_witness :
    ((0 : Nat) < 3 ∧
      (∀ dp, dp ∈ [((1 : Nat), (11 : Nat)), (2, 22), (3, 33)] → dp.1 ≠ 0) ∧
      (([((1 : Nat), (11 : Nat)), (2, 22), (3, 33)].map Prod.fst).Nodup)) ∧
    ((∀ (tbl : Nat → HashMapEntry) (p : Nat), insertTransaction 3 tbl 0 p = tbl) ∧
    (∀ (tbl : Nat → HashMapEntry) (d p : Nat), d ≠ 0 →
      (∀ i, i < 3 → (tbl ((hashFunc 3 d + i) % 3)).digest ≠ 0) →
      insertTransaction 3 tbl d p = tbl) ∧
    findTransaction 3 (insertList 3 emptyTable [(1, 11), (2, 22), (3, 33)]) 0 = 0 ∧
    (∀ d, d ≠ 0 →
      (∀ s, s < 3 →
        ((insertList 3 emptyTable [(1, 11), (2, 22), (3, 33)]) s).digest ≠ d) →
      findTransaction 3 (insertList 3 emptyTable [(1, 11), (2, 22), (3, 33)]) d = 0) ∧
    (∀ d p, (d, p) ∈ [((1 : Nat), (11 : Nat)), (2, 22), (3, 33)] → ∀ s, s < 3 →
      insertList 3 emptyTable [(1, 11), (2, 22), (3, 33)] s = ⟨d, p⟩ →
      findTransaction 3 (insertList 3 emptyTable [(1, 11), (2, 22), (3, 33)]) d = p)) :=
  ⟨⟨by decide, by decide, by decide⟩,
    digest_index_spec 3 (by decide) [(1, 11), (2, 22), (3, 33)] (by decide) (by decide)⟩

theorem invalidate_then_load_fails_witness :
    (3 : Nat) ≠ 0 ∧
    (tryLoadFromFile cfgA 3
        (saveInvalidateData ⟨fun _ => none, true, true, true, true⟩ 7) 7
        ⟨5, 8, invalidMetaData, 0, false, false, false, false⟩).1 = 2 :=
  ⟨by decide,
    (invalidate_then_load_fails cfgA 3 ⟨fun _ => none, true, true, true, true⟩ 7
      ⟨5, 8, invalidMetaData, 0, false, false, false, false⟩ (by decide)).2.2.2.2.2.2.1⟩

end Qubic
